import Mathlib

/-!
Verification of the Jakob and Hanika (2019) reflectance-recovery module
(src/colour/recovery/jakob2019.py) against its natural-language specification.

Numbers: the Python code computes with IEEE doubles; we embed its arithmetic
over the exact fields, using the rationals for every computation the source
performs with field operations only, and the reals where the source takes
square or cube roots.  External collaborators (scipy's minimize, the
colourspace transform matrices) are abstracted as function parameters; the
semantics of scipy's RegularGridInterpolator (with bounds_error=False and the
default NaN fill value) and of numpy primitives (argmax, searchsorted,
linspace) are embedded faithfully from their documented behaviour.
-/

/-- Triple of rationals, standing for a 3-component numpy float array. -/
abbrev Q3 := ℚ × ℚ × ℚ

/-- SpectralShape (start, end, step) in nanometers.  The field named stop is
the Python attribute named end (a Lean keyword). -/
structure SpectralShape where
  start : ℚ
  stop : ℚ
  step : ℚ
  deriving DecidableEq, Repr, Inhabited

namespace SpectralShape

/-- Modelled from the spec: the number of samples of the wavelength sample
sequence generated by a SpectralShape, the samples spanning the interval from
start to end evenly with the given step (SpectralShape.range is code of this
repository that is not under src/). -/
def count (s : SpectralShape) : ℕ :=
  (⌊(s.stop - s.start) / s.step⌋).toNat + 1

/-- Modelled from the spec: the wavelength sample sequence of a SpectralShape,
that is start, start + step, ..., end. -/
def range (s : SpectralShape) : List ℚ :=
  (List.range s.count).map (fun (k : ℕ) => s.start + (k : ℚ) * s.step)

end SpectralShape

/-- Default spectral shape of jakob2019.py: SpectralShape(360, 780, 5). -/
def DEFAULT_SPECTRAL_SHAPE_JAKOB_2019 : SpectralShape :=
  { start := 360, stop := 780, step := 5 }

/-- Value of the polynomial U = c_0 wl^2 + c_1 wl + c_2 of spectral_model
(src line 60) at one wavelength. -/
def Upoly (c : Q3) (wl : ℚ) : ℚ :=
  c.1 * wl ^ 2 + c.2.1 * wl + c.2.2

/-- The sigmoid R = 1/2 + U / (2 sqrt (1 + U^2)) applied by spectral_model
(src line 61) to each value of U. -/
noncomputable def sigmoidR (u : ℝ) : ℝ :=
  1 / 2 + u / (2 * Real.sqrt (1 + u ^ 2))

/-- Embedding of spectral_model (src lines 51-66): the list of reflectance
values of the Jakob and Hanika (2019) spectral model over the wavelength
sample sequence of the given shape (the returned SpectralDistribution is
this value list keyed by the wavelengths). -/
noncomputable def spectral_model (coefficients : Q3) (shape : SpectralShape) :
    List ℝ :=
  shape.range.map (fun wl => sigmoidR ((Upoly coefficients wl : ℚ) : ℝ))

/-- Embedding of dimensionalise_coefficients (src lines 186-219). -/
def dimensionalise_coefficients (coefficients : Q3) (shape : SpectralShape) :
    Q3 :=
  let cp_0 := coefficients.1
  let cp_1 := coefficients.2.1
  let cp_2 := coefficients.2.2
  let span := shape.stop - shape.start
  let c_0 := cp_0 / span ^ 2
  let c_1 := cp_1 / span - 2 * cp_0 * shape.start / span ^ 2
  let c_2 := cp_0 * shape.start ^ 2 / span ^ 2 - cp_1 * shape.start / span
      + cp_2
  (c_0, c_1, c_2)

/-- The smoothstep function of create_lightness_scale (src lines 230-231). -/
def smoothstep (x : ℚ) : ℚ := x ^ 2 * (3 - 2 * x)

/-- Embedding of numpy.linspace(0, 1, n): n evenly spaced samples of the unit
interval (for n = 1 numpy returns the single sample 0, which the formula
below also yields since division by zero produces zero). -/
def linspace01 (n : ℕ) : List ℚ :=
  (List.range n).map (fun (k : ℕ) => (k : ℚ) / ((n : ℚ) - 1))

/-- Embedding of create_lightness_scale (src lines 222-234): the double
smoothstep applied to a linear ramp of the given number of steps. -/
def create_lightness_scale (steps : ℕ) : List ℚ :=
  (linspace01 steps).map (fun x => smoothstep (smoothstep x))

/-! ### Lightness scale facts (claim C6) -/

/-- Odd cubic describing the double smoothstep around the midpoint:
smoothstep (1/2 + t) = 1/2 + sigmaMid t. -/
def sigmaMid (t : ℚ) : ℚ := 3 / 2 * t - 2 * t ^ 3

/-- Consecutive difference of the lightness scale between positions k and
k + 1. -/
def scaleDelta (steps k : ℕ) : ℚ :=
  (create_lightness_scale steps).getD (k + 1) 0 -
    (create_lightness_scale steps).getD k 0

/-- Property of create_lightness_scale asserted by the specification, with
denser near both ends formalised as: the first and the last consecutive
delta are strictly smaller than the middle one. -/
def lightnessScaleClaimedProp (steps : ℕ) : Prop :=
  List.Pairwise (· < ·) (create_lightness_scale steps) ∧
  (create_lightness_scale steps).getD 0 0 = 0 ∧
  (create_lightness_scale steps).getD (steps - 1) 0 = 1 ∧
  scaleDelta steps 0 < scaleDelta steps ((steps - 1) / 2) ∧
  scaleDelta steps (steps - 2) < scaleDelta steps ((steps - 1) / 2)

/-- Amended property: strict monotonicity and the 0 and 1 endpoints for every
steps at least 2; the end-versus-middle delta comparison from steps = 4 on
(at steps 2 and 3 the scale has no middle delta distinct from the end ones:
at 3 the two deltas are equal). -/
def lightnessScaleAmendedProp (steps : ℕ) : Prop :=
  List.Pairwise (· < ·) (create_lightness_scale steps) ∧
  (create_lightness_scale steps).getD 0 0 = 0 ∧
  (create_lightness_scale steps).getD (steps - 1) 0 = 1 ∧
  (4 ≤ steps →
    scaleDelta steps 0 < scaleDelta steps ((steps - 1) / 2) ∧
    scaleDelta steps (steps - 2) < scaleDelta steps ((steps - 1) / 2))

/-- C6 counterexample: at steps = 3 (which the claim, quantified over all
steps at least 2, covers) the two consecutive deltas are both 1/2, so the
end deltas are not strictly smaller than the middle one. -/
theorem create_lightness_scale_claim_fails_at_three :
    ¬ lightnessScaleClaimedProp 3 := by
  intro hcl
  obtain ⟨-, -, -, hd, -⟩ := hcl
  norm_num [scaleDelta, create_lightness_scale, linspace01, List.range_succ,
    smoothstep] at hd

/-- The normalized-domain spectral model: the model evaluated with
dimensionless coefficients at n evenly spaced samples of the unit interval
(the domain used inside error_function, src line 122). -/
noncomputable def normalized_spectral_model (c : Q3) (n : ℕ) : List ℝ :=
  (linspace01 n).map (fun t => sigmoidR ((Upoly c t : ℚ) : ℝ))

/-! ### Heap model and find_coefficients (claims C1, C2, C10) -/

/-- State of a SpectralDistribution object: the parts that align and copy
touch, namely the sampling shape and the value table. -/
structure SDData where
  shape : SpectralShape
  values : List ℚ
  deriving DecidableEq, Repr, Inhabited

/-- Heap of spectral distribution objects.  Python variables hold handles
(list indices); mutation of an object is a set at its handle. -/
abbrev SDStore := List SDData

/-- Modelled from the spec: SpectralDistribution.copy (code of this
repository not under src/) allocates a fresh identical object; returns the
new handle and the extended store. -/
def sdCopy (store : SDStore) (h : ℕ) : ℕ × SDStore :=
  (store.length, store ++ [store.getD h default])

/-- Modelled from the spec: SpectralDistribution.align (code of this
repository not under src/) resamples the object in place onto the given
shape; the value interpolation is abstracted as the parameter resample. -/
def sdAlign (resample : List ℚ → SpectralShape → List ℚ)
    (store : SDStore) (h : ℕ) (shape : SpectralShape) : SDStore :=
  store.set h
    { shape := shape, values := resample (store.getD h default).values shape }

/-- Embedding of the illuminant alignment step of find_coefficients (src
lines 285-289): when the illuminant shape differs from the CMFS shape the
illuminant is copied and the copy is aligned in place; the local variable is
rebound to the copy's handle and the caller's object is untouched. -/
def align_illuminant (resample : List ℚ → SpectralShape → List ℚ)
    (store : SDStore) (cmfs illuminant : ℕ) : ℕ × SDStore :=
  if (store.getD illuminant default).shape ≠ (store.getD cmfs default).shape
  then
    let c := sdCopy store illuminant
    (c.1, sdAlign resample c.2 c.1 (store.getD cmfs default).shape)
  else (illuminant, store)

/-- The float literal 1e-10 of the source, read as the real number 10^-10. -/
def eps10 : ℚ := 1 / 10 ^ 10

/-- Embedding of numpy.max over a 3-component array. -/
def max3 (c : Q3) : ℚ := max c.1 (max c.2.1 c.2.2)

/-- The intermediate RGB solved for at scale position i during the feedback
walk (src line 322): scale[i] * (target_RGB + 1e-10) / target_max. -/
def intermediate_RGB (scale : List ℚ) (target_RGB : Q3) (target_max : ℚ)
    (i : ℕ) : Q3 :=
  let s := scale.getD i 0
  (s * (target_RGB.1 + eps10) / target_max,
   s * (target_RGB.2.1 + eps10) / target_max,
   s * (target_RGB.2.2 + eps10) / target_max)

/-- Embedding of the use_feedback loop of find_coefficients (src lines
314-334).  M abstracts one scipy minimize call on error_function composed
with the RGB to Lab conversion: from seed coefficients and the RGB whose Lab
is targeted to the optimal coefficients and objective value.  Returns the
final seed together with the list of scale indices at which a minimization
was run.  The loop always terminates because the index walks monotonically
toward a scale boundary; the fuel argument makes that measure explicit and
find_coefficients passes fuel = lightness_steps, which suffices. -/
def feedback_walk (M : Q3 → Q3 → Q3 × ℚ) (scale : List ℚ) (steps : ℕ)
    (target_max : ℚ) (interRGB : ℕ → Q3) (goingUp : Bool) :
    ℕ → ℕ → Q3 → Q3 × List ℕ
  | 0, _, c => (c, [])
  | fuel + 1, i, c =>
    if goingUp then
      if i + 1 = steps ∨ target_max ≤ scale.getD (i + 1) 0 then (c, [])
      else
        let c1 := (M c (interRGB i)).1
        let r := feedback_walk M scale steps target_max interRGB goingUp fuel
          (i + 1) c1
        (r.1, i :: r.2)
    else
      if i = 0 ∨ scale.getD (i - 1) 0 ≤ target_max then (c, [])
      else
        let c1 := (M c (interRGB i)).1
        let r := feedback_walk M scale steps target_max interRGB goingUp fuel
          (i - 1) c1
        (r.1, i :: r.2)

/-- Embedding of find_coefficients (src lines 237-350) over the heap model.
The scipy minimize call composed with the colourspace RGB to Lab transform
is abstracted as M; the illuminant resampling as resample.  cmfs and
illuminant are handles into the store.  Returns ((coefficients, error),
final store). -/
def find_coefficients (M : Q3 → Q3 → Q3 × ℚ)
    (resample : List ℚ → SpectralShape → List ℚ) (store : SDStore)
    (cmfs illuminant : ℕ) (target_RGB : Q3) (coefficients_0 : Q3)
    (dimensionalise use_feedback : Bool) (lightness_steps : ℕ) :
    (Q3 × ℚ) × SDStore :=
  let p := align_illuminant resample store cmfs illuminant
  let store1 := p.2
  let shape := (store1.getD p.1 default).shape
  let seed :=
    if use_feedback then
      let target_max := max3 target_RGB + eps10
      let scale := create_lightness_scale lightness_steps
      let i0 := lightness_steps / 3
      let goingUp := decide (scale.getD i0 0 < max3 target_RGB)
      (feedback_walk M scale lightness_steps target_max
        (intermediate_RGB scale target_RGB target_max) goingUp
        lightness_steps i0 coefficients_0).1
    else coefficients_0
  let opt := M seed target_RGB
  let coefficients :=
    if dimensionalise then dimensionalise_coefficients opt.1 shape else opt.1
  ((coefficients, opt.2), store1)

/-- Embedding of RGB_to_sd_Jakob2019 (src lines 353-420).  Exactly as in the
source (lines 405-410), find_coefficients is invoked with the four positional
arguments only: coefficients_0, dimensionalise, use_feedback and
lightness_steps are left at the find_coefficients defaults (0,0,0), True,
True and 64; the use_feedback and lightness_steps parameters received by
RGB_to_sd_Jakob2019 are not forwarded.  The spectral distribution is built
by the spectral model over the CMFS shape. -/
noncomputable def RGB_to_sd_Jakob2019 (M : Q3 → Q3 → Q3 × ℚ)
    (resample : List ℚ → SpectralShape → List ℚ) (store : SDStore)
    (cmfs illuminant : ℕ) (target_RGB : Q3)
    (_use_feedback : Bool) (_lightness_steps : ℕ) :
    (List ℝ × ℚ) × SDStore :=
  let r := find_coefficients M resample store cmfs illuminant target_RGB
    (0, 0, 0) true true 64
  ((spectral_model r.1.1 (store.getD cmfs default).shape, r.1.2), r.2)

/-- A concrete minimizer instance for exercising the embeddings: each
minimize call adds 1 to the first coefficient, so the number of
minimizations run is visible in the result. -/
def incMinimizer : Q3 → Q3 → Q3 × ℚ := fun c _ => ((c.1 + 1, c.2.1, c.2.2), 0)

/-- A concrete resampler instance that keeps the value table. -/
def idResample : List ℚ → SpectralShape → List ℚ := fun v _ => v

/-- A spectral shape with start 0, end 1, step 1 (span 1, two samples). -/
def unitShape : SpectralShape := ⟨0, 1, 1⟩

/-- A store with two objects of identical shape: handle 0 the CMFS, handle 1
the illuminant; their shapes agree so no alignment happens. -/
def demoStore : SDStore := [⟨unitShape, []⟩, ⟨unitShape, []⟩]

/-! ### The feedback walk follows the claimed schedule (claim C2) -/

/-- Position of the claimed walk after k iterations: one index per iteration
from the start index, upward or downward. -/
def walkMove (goingUp : Bool) (i0 k : ℕ) : ℕ :=
  if goingUp then i0 + k else i0 - k

/-- The stopping condition exactly as the claim words it: the next scale
value would overshoot target_max (next value at least it going up, at most
it going down), or the scale boundary (index 0 or the last index) is
reached. -/
def walkStopClaim (scale : List ℚ) (steps : ℕ) (target_max : ℚ)
    (goingUp : Bool) (i : ℕ) : Prop :=
  if goingUp then i = steps - 1 ∨ target_max ≤ scale.getD (i + 1) 0
  else i = 0 ∨ scale.getD (i - 1) 0 ≤ target_max

instance (scale : List ℚ) (steps : ℕ) (target_max : ℚ) (goingUp : Bool)
    (i : ℕ) : Decidable (walkStopClaim scale steps target_max goingUp i) := by
  unfold walkStopClaim
  infer_instance

/-- The behaviour C2 asserts of the feedback walk, for a walk value w =
(final seed, indices minimized at): the indices are consecutive from the
start in the walk direction, no visited index satisfies the stopping
condition, the index one past the trace is the first to satisfy it, and the
final seed is the left fold of the minimizer over the visited indices
(each minimization re-seeded with the previous solution). -/
def feedbackWalkClaimProp (M : Q3 → Q3 → Q3 × ℚ) (scale : List ℚ)
    (steps : ℕ) (tmax : ℚ) (interRGB : ℕ → Q3) (goingUp : Bool) (i0 : ℕ)
    (c0 : Q3) (w : Q3 × List ℕ) : Prop :=
  w.2 = (List.range w.2.length).map (walkMove goingUp i0) ∧
  (∀ k < w.2.length,
    ¬ walkStopClaim scale steps tmax goingUp (walkMove goingUp i0 k)) ∧
  walkStopClaim scale steps tmax goingUp (walkMove goingUp i0 w.2.length) ∧
  w.1 = List.foldl (fun a j => (M a (interRGB j)).1) c0 w.2

/-! ### error_function and the unguarded gradient division (claim C8) -/

/-- Embedding of colour.algebra.spow: sign (a) times |a| to the power p. -/
noncomputable def spowR (x p : ℝ) : ℝ := Real.sign x * |x| ^ p

/-- The inputs of error_function (src lines 72-183): the number of spectral
samples, the three dimensionless coefficients, the target Lab triple, the
illuminant values, the CMFS values and wavelengths, and the illuminant XYZ
triple. -/
structure ErrorArgs where
  n : ℕ
  c0 : ℝ
  c1 : ℝ
  c2 : ℝ
  target : Fin 3 → ℝ
  ill : ℕ → ℝ
  cmfs : ℕ → Fin 3 → ℝ
  cmfsWl : ℕ → ℝ
  illXYZ : Fin 3 → ℝ

/-- wv = linspace (0, 1, len (shape.range ())) (src line 122). -/
noncomputable def ef_wv (a : ErrorArgs) (k : ℕ) : ℝ :=
  (k : ℝ) / ((a.n : ℝ) - 1)

/-- U = c_0 wv^2 + c_1 wv + c_2 (src line 124). -/
noncomputable def ef_U (a : ErrorArgs) (k : ℕ) : ℝ :=
  a.c0 * ef_wv a k ^ 2 + a.c1 * ef_wv a k + a.c2

/-- t1 = sqrt (1 + U^2) (src line 125). -/
noncomputable def ef_t1 (a : ErrorArgs) (k : ℕ) : ℝ :=
  Real.sqrt (1 + ef_U a k ^ 2)

/-- R = 1/2 + U / (2 t1) (src line 126). -/
noncomputable def ef_R (a : ErrorArgs) (k : ℕ) : ℝ :=
  1 / 2 + ef_U a k / (2 * ef_t1 a k)

/-- t2 = 1 / (2 t1) - U^2 / (2 t1^3) (src line 128). -/
noncomputable def ef_t2 (a : ErrorArgs) (k : ℕ) : ℝ :=
  1 / (2 * ef_t1 a k) - ef_U a k ^ 2 / (2 * ef_t1 a k ^ 3)

/-- dR = [wv^2 t2, wv t2, t2] (src line 129). -/
noncomputable def ef_dR (a : ErrorArgs) (j : Fin 3) (k : ℕ) : ℝ :=
  ![ef_wv a k ^ 2 * ef_t2 a k, ef_wv a k * ef_t2 a k, ef_t2 a k] j

/-- E = illuminant.values * R (src line 131). -/
noncomputable def ef_E (a : ErrorArgs) (k : ℕ) : ℝ := a.ill k * ef_R a k

/-- dE = illuminant.values * dR (src line 132). -/
noncomputable def ef_dE (a : ErrorArgs) (j : Fin 3) (k : ℕ) : ℝ :=
  a.ill k * ef_dR a j k

/-- dw = cmfs.wavelengths[1] - cmfs.wavelengths[0] (src line 134). -/
noncomputable def ef_dw (a : ErrorArgs) : ℝ := a.cmfsWl 1 - a.cmfsWl 0

/-- k = 1 / (sum (cmfs.values[:,1] * illuminant.values) dw) (src line 135). -/
noncomputable def ef_k (a : ErrorArgs) : ℝ :=
  1 / ((∑ k ∈ Finset.range a.n, a.cmfs k 1 * a.ill k) * ef_dw a)

/-- XYZ[i] = k dot (E, cmfs.values[:,i]) dw (src line 140). -/
noncomputable def ef_XYZ (a : ErrorArgs) (i : Fin 3) : ℝ :=
  ef_k a * (∑ k ∈ Finset.range a.n, ef_E a k * a.cmfs k i) * ef_dw a

/-- dXYZ[i,j] = k dot (dE[j], cmfs.values[:,i]) dw (src line 142). -/
noncomputable def ef_dXYZ (a : ErrorArgs) (i j : Fin 3) : ℝ :=
  ef_k a * (∑ k ∈ Finset.range a.n, ef_dE a j k * a.cmfs k i) * ef_dw a

/-- XYZ_norm = XYZ / illuminant_XYZ (src line 144). -/
noncomputable def ef_XYZn (a : ErrorArgs) (i : Fin 3) : ℝ :=
  ef_XYZ a i / a.illXYZ i

/-- f: the CIE Lab nonlinearity with cube root and linear branches (src
lines 145-149). -/
noncomputable def ef_f (a : ErrorArgs) (i : Fin 3) : ℝ :=
  if ef_XYZn a i > (24 / 116) ^ 3 then spowR (ef_XYZn a i) (1 / 3)
  else 841 / 108 * ef_XYZn a i + 16 / 116

/-- df: the branchwise derivative of f (src lines 152-159). -/
noncomputable def ef_df (a : ErrorArgs) (i j : Fin 3) : ℝ :=
  if ef_XYZn a i > (24 / 116) ^ 3 then
    1 / (3 * spowR (a.illXYZ i) (1 / 3) * spowR (ef_XYZ a i) (2 / 3)) *
      ef_dXYZ a i j
  else 841 / 108 * ef_dXYZ a i j / a.illXYZ i

/-- Lab = [116 f1 - 16, 500 (f0 - f1), 200 (f1 - f2)] (src lines 161-165). -/
noncomputable def ef_Lab (a : ErrorArgs) : Fin 3 → ℝ :=
  ![116 * ef_f a 1 - 16, 500 * (ef_f a 0 - ef_f a 1),
    200 * (ef_f a 1 - ef_f a 2)]

/-- dLab = [116 df[1], 500 (df[0] - df[1]), 200 (df[1] - df[2])] (src lines
167-171); dLab j i is the derivative of Lab component j with respect to
coefficient i. -/
noncomputable def ef_dLab (a : ErrorArgs) : Fin 3 → Fin 3 → ℝ :=
  ![fun i => 116 * ef_df a 1 i, fun i => 500 * (ef_df a 0 i - ef_df a 1 i),
    fun i => 200 * (ef_df a 1 i - ef_df a 2 i)]

/-- error = sqrt (sum ((Lab - target)^2)) (src line 173). -/
noncomputable def ef_error (a : ErrorArgs) : ℝ :=
  Real.sqrt (∑ j : Fin 3, (ef_Lab a j - a.target j) ^ 2)

/-- derror[i] = (sum_j dLab[j,i] (Lab[j] - target[j])) / error (src lines
175-179): the division by error is applied unconditionally. -/
noncomputable def ef_derror (a : ErrorArgs) (i : Fin 3) : ℝ :=
  (∑ j : Fin 3, ef_dLab a j i * (ef_Lab a j - a.target j)) / ef_error a

/-- A degenerate input on which the computed Lab equals the target exactly:
two samples, zero coefficients (flat 1/2 reflectance), unit illuminant and
CMFS, illuminant XYZ (100, 100, 100); the normalized XYZ is 1/200, below the
linear-branch threshold, and the target is set to the resulting Lab. -/
noncomputable def degenerateArgs : ErrorArgs where
  n := 2
  c0 := 0
  c1 := 0
  c2 := 0
  target := ![24389 / 5400, 0, 0]
  ill := fun _ => 1
  cmfs := fun _ _ => 1
  cmfsWl := fun k => (k : ℝ)
  illXYZ := fun _ => 100

/-! ### The lookup-table interpolator (claims C4, C5, C9) -/

/-- State of a loaded Jakob2019Interpolator: the grid resolution, the
nonuniform scale axis (axis 1) and the coefficient table of shape
(3, res, res, res, 3). -/
structure InterpolatorState where
  res : ℕ
  scale : ℕ → ℚ
  table : ℕ → ℕ → ℕ → ℕ → Fin 3 → ℚ

/-- Component i of an RGB triple (numpy indexing along the last axis;
index_along_last_axis is repository code not under src/, modelled from the
spec as plain component selection). -/
def comp3 (c : Q3) (i : ℕ) : ℚ :=
  if i = 0 then c.1 else if i = 1 then c.2.1 else c.2.2

/-- Embedding of numpy.argmax on a 3-vector: the first index attaining the
maximum. -/
def argmax3 (c : Q3) : ℕ :=
  if c.2.1 ≤ c.1 ∧ c.2.2 ≤ c.1 then 0 else if c.2.2 ≤ c.2.1 then 1 else 2

/-- chroma = RGB / (vmax + 1e-10) (src line 449). -/
def chroma3 (c : Q3) : Q3 :=
  (c.1 / (max3 c + eps10), c.2.1 / (max3 c + eps10), c.2.2 / (max3 c + eps10))

/-- The uniform axis samples np.linspace (0, 1, res) (src line 440) as a
function of the index. -/
def linspaceAt (n : ℕ) (j : ℕ) : ℚ := (j : ℚ) / ((n : ℚ) - 1)

/-- Left insertion point of numpy.searchsorted on a sorted axis: the number
of grid values strictly below x. -/
def ssLeft (pts : ℕ → ℚ) (n : ℕ) (x : ℚ) : ℕ :=
  ((Finset.range n).filter (fun k => pts k < x)).card

/-- The cell index scipy's RegularGridInterpolator uses for one axis:
searchsorted minus one, clipped into [0, n - 2]. -/
def cellIndex (pts : ℕ → ℚ) (n : ℕ) (x : ℚ) : ℕ :=
  min (ssLeft pts n x - 1) (n - 2)

/-- The normalized distance of x inside its cell, only meaningful when the
cell width is nonzero; a zero-width cell makes scipy's norm distance 0/0 or
x/0 (NaN or an infinity), which interp1 below accounts for separately. -/
def normDist (pts : ℕ → ℚ) (n : ℕ) (x : ℚ) : ℚ :=
  (x - pts (cellIndex pts n x)) /
    (pts (cellIndex pts n x + 1) - pts (cellIndex pts n x))

/-- Linear interpolation along one axis of the (possibly NaN) values v, with
none modelling NaN.  On a single-point axis (n = 1) scipy clips the cell
index to n - 2 = -1, so with negative-index wrap-around both stencil points
are the one grid point and the cell width is zero: the norm distance is 0/0
for an in-bounds query, and the stencil weights and hence the result are
NaN.  A zero-width cell on a longer axis behaves the same way.  A NaN
stencil value makes the result NaN even when its weight is 0, since
0 * NaN = NaN. -/
def interp1 (pts : ℕ → ℚ) (n : ℕ) (x : ℚ) (v : ℕ → Option ℚ) : Option ℚ :=
  if n ≤ 1 then none
  else if pts (cellIndex pts n x + 1) - pts (cellIndex pts n x) = 0 then none
  else
    match v (cellIndex pts n x), v (cellIndex pts n x + 1) with
    | some a, some b =>
        some ((1 - normDist pts n x) * a + normDist pts n x * b)
    | _, _ => none

/-- Whether x lies outside the closed range of an axis (scipy's
out-of-bounds test with bounds_error = False assigns such points the
default fill value NaN instead of interpolating). -/
def axisOutOfBounds (pts : ℕ → ℚ) (n : ℕ) (x : ℚ) : Bool :=
  decide (x < pts 0) || decide (pts (n - 1) < x)

/-- 4D multilinear interpolation over the loaded grid, as nested 1D linear
interpolations over axis 0 = [0, 1, 2], axis 1 = scale, axes 2 and 3 =
linspace (0, 1, res); none (NaN) from any level propagates outward. -/
def interp4 (st : InterpolatorState) (x0 x1 x2 x3 : ℚ) (ch : Fin 3) :
    Option ℚ :=
  interp1 (fun i => (i : ℚ)) 3 x0 (fun i0 =>
    interp1 st.scale st.res x1 (fun i1 =>
      interp1 (linspaceAt st.res) st.res x2 (fun i2 =>
        interp1 (linspaceAt st.res) st.res x3 (fun i3 =>
          some (st.table i0 i1 i2 i3 ch)))))

/-- Whether any of the four derived grid coordinates of an RGB triple falls
outside the loaded grid. -/
def coordsOutOfBounds (st : InterpolatorState) (RGB : Q3) : Bool :=
  let imax := argmax3 RGB
  let v1 := comp3 RGB imax
  let v2 := comp3 (chroma3 RGB) ((imax + 2) % 3)
  let v3 := comp3 (chroma3 RGB) ((imax + 1) % 3)
  axisOutOfBounds (fun i => (i : ℚ)) 3 (imax : ℚ) ||
    axisOutOfBounds st.scale st.res v1 ||
    axisOutOfBounds (linspaceAt st.res) st.res v2 ||
    axisOutOfBounds (linspaceAt st.res) st.res v3

/-- Embedding of Jakob2019Interpolator.coefficients (src lines 445-457) for
one RGB triple: derive the coordinates (imax, max value, chroma[(imax+2)%3],
chroma[(imax+1)%3]) and evaluate the grid interpolator, yielding the 3
output channels; in each channel none models a NaN: scipy assigns the fill
value NaN to out-of-bounds points (bounds_error=False with the default
fill_value), and interpolation over a degenerate (single-point or
zero-width) axis produces NaN as well. -/
def Jakob2019Interpolator.coefficients (st : InterpolatorState) (RGB : Q3) :
    Fin 3 → Option ℚ := fun ch =>
  let imax := argmax3 RGB
  let v1 := comp3 RGB imax
  let v2 := comp3 (chroma3 RGB) ((imax + 2) % 3)
  let v3 := comp3 (chroma3 RGB) ((imax + 1) % 3)
  if coordsOutOfBounds st RGB then none
  else interp4 st (imax : ℚ) v1 v2 v3 ch

/-- A small concrete loaded table: resolution 2, scale axis (0, 1), and a
coefficient table whose entries encode their own grid index. -/
def demoInterpState : InterpolatorState where
  res := 2
  scale := fun j => (j : ℚ)
  table := fun i0 j1 j2 j3 ch =>
    (i0 : ℚ) + 10 * j1 + 100 * j2 + 1000 * j3 + 10000 * (ch : ℕ)

/-- A loaded table of resolution 1 (which from_file accepts: a length-1
scale axis passes the strictly-ascending check vacuously), scale axis
(1/2), every stored coefficient 7. -/
def res1State : InterpolatorState where
  res := 1
  scale := fun _ => 1 / 2
  table := fun _ _ _ _ _ => 7

/-! ### from_file and the magic check (claim C9) -/

/-- The 4 ASCII bytes of the magic literal SPEC (ISO-8859-1 decoding of a
byte is the identity on code points). -/
def magicSPEC : List ℕ := [83, 80, 69, 67]

/-- Little-endian byte list to natural number. -/
def leBytesToNat (bs : List ℕ) : ℕ :=
  bs.foldr (fun b acc => b + 256 * acc) 0

/-- Little-endian signed 32-bit integer (struct.unpack with format i). -/
def int32OfLE (bs : List ℕ) : ℤ :=
  let u := leBytesToNat bs
  if u < 2 ^ 31 then (u : ℤ) else (u : ℤ) - 2 ^ 32

/-- Exact value of an IEEE-754 binary32 datum given its bit pattern: none
for an infinity or NaN, otherwise the represented rational. -/
def float32OfBits (u : ℕ) : Option ℚ :=
  let sign : ℕ := u / 2 ^ 31
  let expo : ℕ := u / 2 ^ 23 % 2 ^ 8
  let frac : ℕ := u % 2 ^ 23
  if expo = 255 then none
  else
    let mag : ℚ :=
      if expo = 0 then (frac : ℚ) / 2 ^ 23 * (2 : ℚ) ^ (-(126 : ℤ))
      else (1 + (frac : ℚ) / 2 ^ 23) * (2 : ℚ) ^ ((expo : ℤ) - 127)
    some (if sign = 1 then -mag else mag)

/-- A little-endian 4-byte group as a float32 value. -/
def float32OfLE (bs : List ℕ) : Option ℚ := float32OfBits (leBytesToNat bs)

/-- numpy.fromfile with a float32 dtype and the given count: reads as many
complete 4-byte items as requested and available. -/
def readFloats (data : List ℕ) (count : ℕ) : List (Option ℚ) :=
  (List.range (min count (data.length / 4))).map
    (fun i => float32OfLE ((data.drop (4 * i)).take 4))

/-- The raw contents of a parsed coefficient table file: the resolution, the
res scale floats and the 3 res^3 3 coefficient floats in file order. -/
structure ParsedTable where
  res : ℕ
  scale : List (Option ℚ)
  coeffs : List (Option ℚ)
  deriving DecidableEq, Repr

/-- Comparison of two possibly-NaN float values: a numeric strict order,
false whenever either operand is NaN (none), matching numpy comparison
semantics. -/
def optLt (a b : Option ℚ) : Bool :=
  match a, b with
  | some x, some y => decide (x < y)
  | _, _ => false

/-- np.all (np.diff (p) > 0): consecutive values strictly ascending; any
comparison involving NaN (none) is false. -/
def strictlyAscending : List (Option ℚ) → Bool
  | [] => true
  | [_] => true
  | a :: b :: rest => optLt a b && strictlyAscending (b :: rest)

/-- Embedding of Jakob2019Interpolator.from_file (src lines 427-443) on the
byte contents of the file.  The first 4 bytes must decode to SPEC, else a
format error is raised before anything further is read.  After the magic,
the little-endian int32 resolution, the res scale floats and the
3 res^3 3 coefficient floats are read; a file too short for the declared
sizes fails at struct.unpack or at the reshape, and the
RegularGridInterpolator constructor rejects a scale axis that is not
strictly ascending (the uniform axes [0,1,2] and linspace (0,1,res) always
pass its check). -/
def Jakob2019Interpolator.from_file (data : List ℕ) :
    Except String ParsedTable :=
  if data.take 4 ≠ magicSPEC then
    .error "Bad magic number, this likely is not the right file type!"
  else
    let rest1 := data.drop 4
    if rest1.length < 4 then .error "struct.error: unpack requires 4 bytes"
    else
      let res := int32OfLE (rest1.take 4)
      let rest2 := rest1.drop 4
      if res < 0 then .error "ValueError: negative dimensions are not allowed"
      else
        let resN := res.toNat
        let scaleFloats := readFloats rest2 resN
        let rest3 := rest2.drop (4 * resN)
        let coeffCount := 3 * resN ^ 3 * 3
        let coeffFloats := readFloats rest3 coeffCount
        if coeffFloats.length ≠ coeffCount then
          .error "ValueError: cannot reshape array"
        else if scaleFloats.length ≠ resN then
          .error "ValueError: points-values length mismatch in dimension 1"
        else if strictlyAscending scaleFloats then
          .ok { res := resN, scale := scaleFloats, coeffs := coeffFloats }
        else
          .error "ValueError: the points in dimension 1 must be strictly ascending"

/-- A well-formed table file: magic, resolution 1, one scale float and
3 x 1 x 3 = 9 coefficient floats (36 zero bytes). -/
def goodFile : List ℕ :=
  magicSPEC ++ [1, 0, 0, 0] ++ [0, 0, 0, 0] ++ List.replicate 36 0

/-- A table file whose magic matches but whose scale axis is descending:
magic, resolution 2, scale floats 1.0 and 0.0, and 3 x 8 x 3 = 72
coefficient floats (288 zero bytes). -/
def badScaleFile : List ℕ :=
  magicSPEC ++ [2, 0, 0, 0] ++ [0, 0, 128, 63] ++ [0, 0, 0, 0] ++
    List.replicate 288 0

/-! ### Theorems -/
example : smoothstep (1 / 2) = 1 / 2 := by norm_num [smoothstep]
example : create_lightness_scale 3 = [0, 1 / 2, 1] := by
  norm_num [create_lightness_scale, linspace01, List.range_succ, smoothstep]
example : DEFAULT_SPECTRAL_SHAPE_JAKOB_2019.count = 85 := by
  norm_num [SpectralShape.count, DEFAULT_SPECTRAL_SHAPE_JAKOB_2019]
  rfl

lemma smoothstep_half_add (t : ℚ) :
    smoothstep (1 / 2 + t) = 1 / 2 + sigmaMid t := by
  unfold smoothstep sigmaMid; ring

lemma smoothstep_one_sub (x : ℚ) :
    smoothstep (1 - x) = 1 - smoothstep x := by
  unfold smoothstep; ring

lemma smoothstep_nonneg {x : ℚ} (_h0 : 0 ≤ x) (h1 : x ≤ 1) :
    0 ≤ smoothstep x := by
  unfold smoothstep
  nlinarith [sq_nonneg x, mul_nonneg (sq_nonneg x) (by linarith : (0 : ℚ) ≤ 3 - 2 * x)]

lemma smoothstep_le_one {x : ℚ} (h0 : 0 ≤ x) (_h1 : x ≤ 1) :
    smoothstep x ≤ 1 := by
  unfold smoothstep
  nlinarith [mul_nonneg (sq_nonneg (1 - x)) (by linarith : (0 : ℚ) ≤ 1 + 2 * x)]

lemma smoothstep_lt_smoothstep {x y : ℚ} (h0 : 0 ≤ x) (hxy : x < y)
    (h1 : y ≤ 1) : smoothstep x < smoothstep y := by
  unfold smoothstep
  have hF : 0 < 3 * (x + y) - 2 * (x ^ 2 + x * y + y ^ 2) := by
    nlinarith [mul_nonneg h0 (by linarith : (0 : ℚ) ≤ 4 - 2 * x - 2 * y),
      mul_nonneg (by linarith : (0 : ℚ) ≤ y) (by linarith : (0 : ℚ) ≤ 2 - 2 * y)]
  nlinarith [mul_pos (sub_pos.2 hxy) hF]

lemma double_smoothstep_lt {x y : ℚ} (h0 : 0 ≤ x) (hxy : x < y) (h1 : y ≤ 1) :
    smoothstep (smoothstep x) < smoothstep (smoothstep y) :=
  smoothstep_lt_smoothstep (smoothstep_nonneg h0 (le_trans hxy.le h1))
    (smoothstep_lt_smoothstep h0 hxy h1)
    (smoothstep_le_one (le_trans h0 hxy.le) h1)

lemma smoothstep_zero : smoothstep 0 = 0 := by norm_num [smoothstep]

lemma smoothstep_one : smoothstep 1 = 1 := by norm_num [smoothstep]

lemma smoothstep_le_three_sq {x : ℚ} (hx : 0 ≤ x) : smoothstep x ≤ 3 * x ^ 2 := by
  unfold smoothstep
  nlinarith [pow_nonneg hx 3]

/-- Strict upper bound on the double smoothstep near zero. -/
lemma double_smoothstep_lt_27h4 {h : ℚ} (h0 : 0 < h) (h1 : h ≤ 1 / 2) :
    smoothstep (smoothstep h) < 27 * h ^ 4 := by
  have hs_pos : 0 < smoothstep h := by unfold smoothstep; nlinarith
  have hs_lt : smoothstep h < 3 * h ^ 2 := by
    unfold smoothstep
    nlinarith [pow_pos h0 3]
  have hsq : (smoothstep h) ^ 2 < 9 * h ^ 4 := by
    nlinarith [mul_pos (sub_pos.2 hs_lt) (add_pos (by positivity : (0 : ℚ) < 3 * h ^ 2) hs_pos)]
  have hle : smoothstep (smoothstep h) ≤ 3 * (smoothstep h) ^ 2 :=
    smoothstep_le_three_sq hs_pos.le
  linarith

/-- The middle delta dominates for an even number of intervals:
ds h is less than sigmaMid (sigmaMid h) on 0 < h and h at most 1/4. -/
lemma ds_lt_sigma_sigma {h : ℚ} (h0 : 0 < h) (h1 : h ≤ 1 / 4) :
    smoothstep (smoothstep h) < sigmaMid (sigmaMid h) := by
  have hds : smoothstep (smoothstep h) < 27 * h ^ 4 :=
    double_smoothstep_lt_27h4 h0 (by linarith)
  have hcube : h ^ 3 ≤ (1 / 4 : ℚ) ^ 3 := pow_le_pow_left₀ h0.le h1 3
  have h27 : 27 * h ^ 4 < h := by
    nlinarith [mul_le_mul_of_nonneg_right hcube h0.le]
  have hsq8 : h ^ 2 ≤ 1 / 16 := by nlinarith
  set u := sigmaMid h with hu_def
  have hu_lo : 11 / 8 * h ≤ u := by
    rw [hu_def]; unfold sigmaMid
    nlinarith [mul_le_mul_of_nonneg_right hsq8 h0.le]
  have hu_hi : u ≤ 3 / 8 := by
    rw [hu_def]; unfold sigmaMid
    nlinarith [pow_pos h0 3]
  have hu_pos : 0 < u := lt_of_lt_of_le (by positivity) hu_lo
  have husq : u ^ 2 ≤ 9 / 64 := by nlinarith
  have hcub : 2 * u ^ 3 ≤ 9 / 32 * u := by
    nlinarith [mul_le_mul_of_nonneg_right husq hu_pos.le]
  have hss : h < sigmaMid u := by
    unfold sigmaMid
    nlinarith
  linarith

/-- The middle delta dominates for an odd number of intervals:
ds h is less than 2 sigmaMid (sigmaMid (h/2)) on 0 < h and h at most 1/3. -/
lemma ds_lt_two_sigma_sigma {h : ℚ} (h0 : 0 < h) (h1 : h ≤ 1 / 3) :
    smoothstep (smoothstep h) < 2 * sigmaMid (sigmaMid (h / 2)) := by
  have hds : smoothstep (smoothstep h) < 27 * h ^ 4 :=
    double_smoothstep_lt_27h4 h0 (by linarith)
  have hcube : h ^ 3 ≤ (1 / 3 : ℚ) ^ 3 := pow_le_pow_left₀ h0.le h1 3
  have h27 : 27 * h ^ 4 ≤ h := by
    nlinarith [mul_le_mul_of_nonneg_right hcube h0.le]
  have hsq9 : h ^ 2 ≤ 1 / 9 := by nlinarith
  set u := sigmaMid (h / 2) with hu_def
  have hu_lo : 13 / 18 * h ≤ u := by
    rw [hu_def]; unfold sigmaMid
    nlinarith [mul_le_mul_of_nonneg_right hsq9 h0.le]
  have hu_hi : u ≤ 1 / 4 := by
    rw [hu_def]; unfold sigmaMid
    nlinarith [pow_pos h0 3]
  have hu_pos : 0 < u := lt_of_lt_of_le (by positivity) hu_lo
  have husq : u ^ 2 ≤ 1 / 16 := by nlinarith
  have hcub : 2 * u ^ 3 ≤ 1 / 8 * u := by
    nlinarith [mul_le_mul_of_nonneg_right husq hu_pos.le]
  have hss : h < 2 * sigmaMid u := by
    unfold sigmaMid
    nlinarith
  linarith

lemma ds_half : smoothstep (smoothstep (1 / 2)) = 1 / 2 := by
  norm_num [smoothstep]

lemma sigmaMid_neg (t : ℚ) : sigmaMid (-t) = -sigmaMid t := by
  unfold sigmaMid; ring

lemma double_smoothstep_half_add (t : ℚ) :
    smoothstep (smoothstep (1 / 2 + t)) = 1 / 2 + sigmaMid (sigmaMid t) := by
  rw [smoothstep_half_add, smoothstep_half_add]

lemma double_smoothstep_one_sub (x : ℚ) :
    smoothstep (smoothstep (1 - x)) = 1 - smoothstep (smoothstep x) := by
  rw [smoothstep_one_sub, smoothstep_one_sub]

lemma create_lightness_scale_getD (steps k : ℕ) (hk : k < steps) :
    (create_lightness_scale steps).getD k 0 =
      smoothstep (smoothstep ((k : ℚ) / ((steps : ℚ) - 1))) := by
  unfold create_lightness_scale linspace01
  rw [List.map_map, List.getD_eq_getElem?_getD, List.getElem?_map,
    List.getElem?_range hk]
  rfl

lemma create_lightness_scale_pairwise (steps : ℕ) :
    List.Pairwise (· < ·) (create_lightness_scale steps) := by
  unfold create_lightness_scale linspace01
  rw [List.map_map, List.pairwise_map]
  refine (List.pairwise_lt_range steps).imp_of_mem ?_
  intro a b ha hb hab
  have hb' : b < steps := List.mem_range.1 hb
  have hN : (0 : ℚ) < (steps : ℚ) - 1 := by
    have h2 : 2 ≤ steps := by omega
    have : (2 : ℚ) ≤ (steps : ℚ) := by exact_mod_cast h2
    linarith
  have hab' : (a : ℚ) < (b : ℚ) := by exact_mod_cast hab
  have harg : (a : ℚ) / ((steps : ℚ) - 1) < (b : ℚ) / ((steps : ℚ) - 1) :=
    div_lt_div_of_pos_right hab' hN
  have hlo : (0 : ℚ) ≤ (a : ℚ) / ((steps : ℚ) - 1) := by positivity
  have hhi : (b : ℚ) / ((steps : ℚ) - 1) ≤ 1 := by
    rw [div_le_one hN]
    have : (b : ℚ) + 1 ≤ (steps : ℚ) := by exact_mod_cast hb'
    linarith
  exact double_smoothstep_lt hlo harg hhi

lemma scaleDelta_eq (steps k : ℕ) (hk : k + 1 < steps) :
    scaleDelta steps k =
      smoothstep (smoothstep (((k : ℚ) + 1) / ((steps : ℚ) - 1))) -
        smoothstep (smoothstep ((k : ℚ) / ((steps : ℚ) - 1))) := by
  unfold scaleDelta
  rw [create_lightness_scale_getD steps (k + 1) hk,
    create_lightness_scale_getD steps k (by omega)]
  push_cast
  ring_nf

lemma scale_density {steps : ℕ} (h4 : 4 ≤ steps) :
    scaleDelta steps 0 < scaleDelta steps ((steps - 1) / 2) ∧
    scaleDelta steps (steps - 2) < scaleDelta steps ((steps - 1) / 2) := by
  rcases Nat.even_or_odd (steps - 1) with ⟨m, hm⟩ | ⟨m, hm⟩
  · -- even number of intervals: steps = 2 m + 1, middle interval starts at 1/2
    have hsteps : steps = 2 * m + 1 := by omega
    have hm2 : 2 ≤ m := by omega
    have hmid : (steps - 1) / 2 = m := by omega
    have hmQ : (2 : ℚ) ≤ (m : ℚ) := by exact_mod_cast hm2
    have hNQ : ((steps : ℚ) - 1) = 2 * (m : ℚ) := by
      have : ((steps : ℕ) : ℚ) = 2 * (m : ℚ) + 1 := by exact_mod_cast congrArg Nat.cast hsteps
      linarith
    have hmne : (2 : ℚ) * (m : ℚ) ≠ 0 := by positivity
    set h : ℚ := 1 / (2 * (m : ℚ)) with hh
    have hh0 : 0 < h := by positivity
    have hh4 : h ≤ 1 / 4 := by
      rw [hh]
      exact one_div_le_one_div_of_le (by norm_num) (by linarith)
    have hd0 : scaleDelta steps 0 = smoothstep (smoothstep h) := by
      rw [scaleDelta_eq steps 0 (by omega), hNQ]
      norm_num [smoothstep_zero, hh]
    have hdm : scaleDelta steps m = sigmaMid (sigmaMid h) := by
      rw [scaleDelta_eq steps m (by omega), hNQ]
      have e2 : (m : ℚ) / (2 * (m : ℚ)) = 1 / 2 := by
        rw [div_eq_iff hmne]; ring
      have e3 : ((m : ℚ) + 1) / (2 * (m : ℚ)) = 1 / 2 + h := by
        rw [hh, div_eq_iff hmne]; field_simp
      rw [e2, e3, double_smoothstep_half_add, ds_half]
      ring
    have hdlast : scaleDelta steps (steps - 2) = smoothstep (smoothstep h) := by
      rw [scaleDelta_eq steps (steps - 2) (by omega)]
      have c1 : ((steps - 2 : ℕ) : ℚ) = 2 * (m : ℚ) - 1 := by
        have : ((steps - 2 : ℕ) : ℚ) = ((steps : ℕ) : ℚ) - 2 := by
          have h2 : 2 ≤ steps := by omega
          push_cast [Nat.cast_sub h2]
          ring
        rw [this]; linarith
      rw [c1, hNQ]
      have e4 : (2 * (m : ℚ) - 1 + 1) / (2 * (m : ℚ)) = 1 := by field_simp
      have e5 : (2 * (m : ℚ) - 1) / (2 * (m : ℚ)) = 1 - h := by
        rw [hh]; field_simp
      rw [e4, e5, double_smoothstep_one_sub, smoothstep_one, smoothstep_one]
      ring
    rw [hmid, hd0, hdm, hdlast]
    exact ⟨ds_lt_sigma_sigma hh0 hh4, ds_lt_sigma_sigma hh0 hh4⟩
  · -- odd number of intervals: steps = 2 m + 2, middle interval straddles 1/2
    have hsteps : steps = 2 * m + 2 := by omega
    have hm1 : 1 ≤ m := by omega
    have hmid : (steps - 1) / 2 = m := by omega
    have hmQ : (1 : ℚ) ≤ (m : ℚ) := by exact_mod_cast hm1
    have hNQ : ((steps : ℚ) - 1) = 2 * (m : ℚ) + 1 := by
      have : ((steps : ℕ) : ℚ) = 2 * (m : ℚ) + 2 := by exact_mod_cast congrArg Nat.cast hsteps
      linarith
    have hmne : (2 : ℚ) * (m : ℚ) + 1 ≠ 0 := by positivity
    set h : ℚ := 1 / (2 * (m : ℚ) + 1) with hh
    have hh0 : 0 < h := by positivity
    have hh3 : h ≤ 1 / 3 := by
      rw [hh]
      apply one_div_le_one_div_of_le (by norm_num) (by linarith)
    have hd0 : scaleDelta steps 0 = smoothstep (smoothstep h) := by
      rw [scaleDelta_eq steps 0 (by omega), hNQ]
      norm_num [smoothstep_zero, hh]
    have hdm : scaleDelta steps m = 2 * sigmaMid (sigmaMid (h / 2)) := by
      rw [scaleDelta_eq steps m (by omega), hNQ]
      have e2 : (m : ℚ) / (2 * (m : ℚ) + 1) = 1 / 2 + -(h / 2) := by
        rw [hh]; field_simp; ring
      have e3 : ((m : ℚ) + 1) / (2 * (m : ℚ) + 1) = 1 / 2 + h / 2 := by
        rw [hh]; field_simp; ring
      rw [e2, e3, double_smoothstep_half_add, double_smoothstep_half_add,
        sigmaMid_neg, sigmaMid_neg]
      ring
    have hdlast : scaleDelta steps (steps - 2) = smoothstep (smoothstep h) := by
      rw [scaleDelta_eq steps (steps - 2) (by omega)]
      have c1 : ((steps - 2 : ℕ) : ℚ) = 2 * (m : ℚ) := by
        have h2 : 2 ≤ steps := by omega
        have : ((steps - 2 : ℕ) : ℚ) = ((steps : ℕ) : ℚ) - 2 := by
          push_cast [Nat.cast_sub h2]
          ring
        rw [this]; linarith
      rw [c1, hNQ]
      have e4 : (2 * (m : ℚ) + 1) / (2 * (m : ℚ) + 1) = 1 := by field_simp
      have e5 : (2 * (m : ℚ)) / (2 * (m : ℚ) + 1) = 1 - h := by
        rw [hh]; field_simp
      rw [e4, e5, double_smoothstep_one_sub, smoothstep_one, smoothstep_one]
      ring
    rw [hmid, hd0, hdm, hdlast]
    exact ⟨ds_lt_two_sigma_sigma hh0 hh3, ds_lt_two_sigma_sigma hh0 hh3⟩

/-- C6 (amended): for steps at least 2, create_lightness_scale steps is
strictly increasing, starts at 0 and ends at 1; for steps at least 4 the
first and the last consecutive delta are strictly smaller than the middle
delta.  The density part of the original claim fails at steps = 2 and 3. -/
theorem create_lightness_scale_spec (steps : ℕ) (h2 : 2 ≤ steps) :
    lightnessScaleAmendedProp steps := by
  have hN : (0 : ℚ) < (steps : ℚ) - 1 := by
    have : (2 : ℚ) ≤ (steps : ℚ) := by exact_mod_cast h2
    linarith
  refine ⟨create_lightness_scale_pairwise steps, ?_, ?_, fun h4 => scale_density h4⟩
  · rw [create_lightness_scale_getD steps 0 (by omega)]
    norm_num [smoothstep_zero]
  · rw [create_lightness_scale_getD steps (steps - 1) (by omega)]
    have harg : ((steps - 1 : ℕ) : ℚ) / ((steps : ℚ) - 1) = 1 := by
      rw [Nat.cast_sub (by omega)]
      field_simp
    rw [harg, smoothstep_one, smoothstep_one]

/-- Witness for C6: the amended property holds at steps = 5. -/
theorem create_lightness_scale_spec_witness :
    2 ≤ 5 ∧ lightnessScaleAmendedProp 5 :=
  ⟨by norm_num, create_lightness_scale_spec 5 (by norm_num)⟩

/-! ### Spectral model facts (claims C7 and C3) -/

lemma sigmoidR_zero : sigmoidR 0 = 1 / 2 := by
  simp [sigmoidR]

lemma sigmoidR_mem_Ioo (u : ℝ) : 0 < sigmoidR u ∧ sigmoidR u < 1 := by
  have hs : 0 < Real.sqrt (1 + u ^ 2) := Real.sqrt_pos.2 (by positivity)
  have habs : |u| < Real.sqrt (1 + u ^ 2) := by
    rw [← Real.sqrt_sq_eq_abs]
    exact Real.sqrt_lt_sqrt (sq_nonneg u) (by linarith)
  have h2s : (0 : ℝ) < 2 * Real.sqrt (1 + u ^ 2) := by linarith
  have hdiv : |u / (2 * Real.sqrt (1 + u ^ 2))| < 1 / 2 := by
    rw [abs_div, abs_of_pos h2s, div_lt_iff₀ h2s]
    nlinarith
  obtain ⟨hlo, hhi⟩ := abs_lt.1 hdiv
  unfold sigmoidR
  constructor <;> linarith

/-- C7: each value produced by spectral_model is 1/2 + U/(2 sqrt (1 + U^2))
at the corresponding wavelength, every value lies strictly between 0 and 1,
and the zero coefficient triple yields the constant 1/2 curve. -/
theorem spectral_model_values_spec (c : Q3) (shape : SpectralShape) :
    spectral_model c shape =
      shape.range.map (fun wl => 1 / 2 + ((Upoly c wl : ℚ) : ℝ) /
        (2 * Real.sqrt (1 + ((Upoly c wl : ℚ) : ℝ) ^ 2))) ∧
    (∀ r ∈ spectral_model c shape, 0 < r ∧ r < 1) ∧
    spectral_model (0, 0, 0) shape = shape.range.map (fun _ => (1 / 2 : ℝ)) := by
  refine ⟨rfl, ?_, ?_⟩
  · intro r hr
    obtain ⟨wl, -, rfl⟩ := List.mem_map.1 hr
    exact sigmoidR_mem_Ioo _
  · unfold spectral_model
    refine List.map_congr_left fun wl _ => ?_
    have hU : Upoly (0, 0, 0) wl = 0 := by simp [Upoly]
    rw [hU]
    push_cast
    exact sigmoidR_zero

/-- Witness for C7 at the singleton shape (0, 0, 1) and zero coefficients:
the value 1/2 is produced and lies strictly between 0 and 1. -/
theorem spectral_model_values_spec_witness :
    ((1 : ℝ) / 2) ∈ spectral_model (0, 0, 0) ⟨0, 0, 1⟩ ∧
    (0 < (1 : ℝ) / 2 ∧ (1 : ℝ) / 2 < 1) := by
  have hm : ((1 : ℝ) / 2) ∈ spectral_model (0, 0, 0) ⟨0, 0, 1⟩ := by
    have h1 : (⟨0, 0, 1⟩ : SpectralShape).count = 1 := by
      norm_num [SpectralShape.count]
    unfold spectral_model SpectralShape.range
    rw [h1]
    simp [Upoly, sigmoidR_zero]
  exact ⟨hm, (spectral_model_values_spec (0, 0, 0) ⟨0, 0, 1⟩).2.1 _ hm⟩

lemma shape_count_of_even {shape : SpectralShape} {n : ℕ}
    (hstep : 0 < shape.step) (hn : shape.stop = shape.start + n * shape.step) :
    shape.count = n + 1 := by
  unfold SpectralShape.count
  have hdiv : (shape.stop - shape.start) / shape.step = (n : ℚ) := by
    rw [hn]
    field_simp
  rw [hdiv]
  simp

/-- C3: evaluating the spectral model with dimensionalised coefficients over
the shape's wavelengths yields exactly the normalized-domain model values of
the original coefficients at the matching evenly spaced samples of the unit
interval. -/
theorem dimensionalise_coefficients_consistent (c : Q3) (shape : SpectralShape)
    (hstep : 0 < shape.step)
    (heven : ∃ n : ℕ, 1 ≤ n ∧ shape.stop = shape.start + n * shape.step) :
    spectral_model (dimensionalise_coefficients c shape) shape =
      normalized_spectral_model c shape.count := by
  obtain ⟨n, hn1, hn⟩ := heven
  have hcount : shape.count = n + 1 := shape_count_of_even hstep hn
  have hstepne : shape.step ≠ 0 := ne_of_gt hstep
  have hnQ : (1 : ℚ) ≤ (n : ℚ) := by exact_mod_cast hn1
  have hnne : (n : ℚ) ≠ 0 := by linarith
  have hspan : shape.stop - shape.start = (n : ℚ) * shape.step := by linarith
  have hspanne : (n : ℚ) * shape.step ≠ 0 := mul_ne_zero hnne hstepne
  unfold spectral_model normalized_spectral_model SpectralShape.range linspace01
  rw [hcount, List.map_map, List.map_map]
  refine List.map_congr_left fun k hk => ?_
  have hden : ((n + 1 : ℕ) : ℚ) - 1 = (n : ℚ) := by push_cast; ring
  show sigmoidR ((Upoly (dimensionalise_coefficients c shape)
      (shape.start + (k : ℚ) * shape.step) : ℚ) : ℝ) =
    sigmoidR ((Upoly c ((k : ℚ) / (((n + 1 : ℕ) : ℚ) - 1)) : ℚ) : ℝ)
  have hq : Upoly (dimensionalise_coefficients c shape)
      (shape.start + (k : ℚ) * shape.step) =
      Upoly c ((k : ℚ) / (((n + 1 : ℕ) : ℚ) - 1)) := by
    rw [hden]
    obtain ⟨c0, c1, c2⟩ := c
    unfold Upoly dimensionalise_coefficients
    simp only
    rw [hspan]
    field_simp
    ring
  rw [hq]

/-- Witness for C3 at the default shape (360, 780, 5), with 84 intervals, and
coefficients (1, 2, 3). -/
theorem dimensionalise_coefficients_consistent_witness :
    0 < DEFAULT_SPECTRAL_SHAPE_JAKOB_2019.step ∧
    (∃ n : ℕ, 1 ≤ n ∧ DEFAULT_SPECTRAL_SHAPE_JAKOB_2019.stop =
      DEFAULT_SPECTRAL_SHAPE_JAKOB_2019.start +
        n * DEFAULT_SPECTRAL_SHAPE_JAKOB_2019.step) ∧
    spectral_model
        (dimensionalise_coefficients (1, 2, 3) DEFAULT_SPECTRAL_SHAPE_JAKOB_2019)
        DEFAULT_SPECTRAL_SHAPE_JAKOB_2019 =
      normalized_spectral_model (1, 2, 3)
        DEFAULT_SPECTRAL_SHAPE_JAKOB_2019.count := by
  have h1 : 0 < DEFAULT_SPECTRAL_SHAPE_JAKOB_2019.step := by
    norm_num [DEFAULT_SPECTRAL_SHAPE_JAKOB_2019]
  have h2 : ∃ n : ℕ, 1 ≤ n ∧ DEFAULT_SPECTRAL_SHAPE_JAKOB_2019.stop =
      DEFAULT_SPECTRAL_SHAPE_JAKOB_2019.start +
        n * DEFAULT_SPECTRAL_SHAPE_JAKOB_2019.step :=
    ⟨84, by norm_num, by norm_num [DEFAULT_SPECTRAL_SHAPE_JAKOB_2019]⟩
  exact ⟨h1, h2, dimensionalise_coefficients_consistent (1, 2, 3) _ h1 h2⟩

lemma align_illuminant_take (resample : List ℚ → SpectralShape → List ℚ)
    (store : SDStore) (cmfs illuminant : ℕ) :
    ((align_illuminant resample store cmfs illuminant).2).take store.length =
      store := by
  unfold align_illuminant
  by_cases h : (store.getD illuminant default).shape =
      (store.getD cmfs default).shape
  · rw [if_neg (not_not_intro h)]
    exact List.take_length store
  · rw [if_pos h]
    show (List.set (store ++ [store.getD illuminant default]) store.length
        _).take store.length = store
    rw [List.set_append_right _ _ (le_refl store.length)]
    exact List.take_left store _

/-- C10: neither find_coefficients nor RGB_to_sd_Jakob2019 mutates any
object that existed in the store before the call: the final store restricted
to the pre-existing handles is unchanged, for every minimizer, resampler,
store and arguments; in particular when the illuminant shape differs from
the CMFS shape the alignment happens on a freshly allocated copy only. -/
theorem find_coefficients_no_argument_mutation (M : Q3 → Q3 → Q3 × ℚ)
    (resample : List ℚ → SpectralShape → List ℚ) (store : SDStore)
    (cmfs illuminant : ℕ) (target_RGB : Q3) (coefficients_0 : Q3)
    (dimensionalise use_feedback : Bool) (lightness_steps : ℕ)
    (use_feedback' : Bool) (lightness_steps' : ℕ) :
    ((find_coefficients M resample store cmfs illuminant target_RGB
        coefficients_0 dimensionalise use_feedback lightness_steps).2).take
      store.length = store ∧
    ((RGB_to_sd_Jakob2019 M resample store cmfs illuminant target_RGB
        use_feedback' lightness_steps').2).take store.length = store := by
  constructor
  · show ((align_illuminant resample store cmfs illuminant).2).take
      store.length = store
    exact align_illuminant_take resample store cmfs illuminant
  · show ((align_illuminant resample store cmfs illuminant).2).take
      store.length = store
    exact align_illuminant_take resample store cmfs illuminant

/-- C1 (code bug): the result of RGB_to_sd_Jakob2019 does not depend on the
use_feedback and lightness_steps arguments at all, because the source (lines
405-410) invokes find_coefficients with only the four positional arguments,
leaving use_feedback and lightness_steps at the find_coefficients defaults
True and 64 - contradicting both the claim and the function's own parameter
documentation.  The second and third conjuncts show on a concrete instance
(the incrementing minimizer, 4 lightness steps) that use_feedback genuinely
changes what find_coefficients returns (a 2-iteration walk plus the final
minimization versus the final minimization alone), so the ignored parameters
are not semantically inert. -/
theorem RGB_to_sd_Jakob2019_ignores_use_feedback :
    (∀ (M : Q3 → Q3 → Q3 × ℚ) (resample : List ℚ → SpectralShape → List ℚ)
      (store : SDStore) (cmfs illuminant : ℕ) (target_RGB : Q3)
      (uf uf' : Bool) (ls ls' : ℕ),
      RGB_to_sd_Jakob2019 M resample store cmfs illuminant target_RGB uf ls =
        RGB_to_sd_Jakob2019 M resample store cmfs illuminant target_RGB
          uf' ls') ∧
    (find_coefficients incMinimizer idResample demoStore 0 1 (1, 1, 1)
        (0, 0, 0) true true 4).1.1 = (3, 0, 0) ∧
    (find_coefficients incMinimizer idResample demoStore 0 1 (1, 1, 1)
        (0, 0, 0) true false 4).1.1 = (1, 0, 0) := by
  refine ⟨fun _ _ _ _ _ _ _ _ _ _ => rfl, ?_, ?_⟩
  · have hscale : create_lightness_scale 4 =
        [0, 3283 / 19683, 16400 / 19683, 1] := by
      norm_num [create_lightness_scale, linspace01, List.range_succ,
        smoothstep]
    simp only [find_coefficients, align_illuminant, hscale, feedback_walk,
      intermediate_RGB, max3, eps10, incMinimizer, idResample, demoStore,
      dimensionalise_coefficients, unitShape]
    norm_num [feedback_walk, List.getD]
  · simp only [find_coefficients, align_illuminant, incMinimizer, idResample,
      demoStore, dimensionalise_coefficients, unitShape]
    norm_num

lemma feedback_walk_spec_aux (M : Q3 → Q3 → Q3 × ℚ) (scale : List ℚ)
    (steps : ℕ) (tmax : ℚ) (interRGB : ℕ → Q3) (goingUp : Bool)
    (h1 : 1 ≤ steps) :
    ∀ fuel i c, i < steps →
    (goingUp = true → steps ≤ fuel + i + 1) →
    (goingUp = false → i ≤ fuel) →
    ((feedback_walk M scale steps tmax interRGB goingUp fuel i c).2 =
      (List.range
        (feedback_walk M scale steps tmax interRGB goingUp fuel i c).2.length
        ).map (walkMove goingUp i) ∧
    (∀ k <
        (feedback_walk M scale steps tmax interRGB goingUp fuel i c).2.length,
      ¬ walkStopClaim scale steps tmax goingUp (walkMove goingUp i k)) ∧
    walkStopClaim scale steps tmax goingUp (walkMove goingUp i
      (feedback_walk M scale steps tmax interRGB goingUp fuel i c).2.length) ∧
    (feedback_walk M scale steps tmax interRGB goingUp fuel i c).1 =
      List.foldl (fun a j => (M a (interRGB j)).1) c
        (feedback_walk M scale steps tmax interRGB goingUp fuel i c).2) := by
  intro fuel
  induction fuel with
  | zero =>
    intro i c hi hfu hfd
    refine ⟨rfl, fun k hk => absurd hk (Nat.not_lt_zero k), ?_, rfl⟩
    cases goingUp with
    | true =>
      have hle := hfu rfl
      show i + 0 = steps - 1 ∨ tmax ≤ scale.getD (i + 0 + 1) 0
      exact Or.inl (by omega)
    | false =>
      have hle := hfd rfl
      show i - 0 = 0 ∨ scale.getD (i - 0 - 1) 0 ≤ tmax
      exact Or.inl (by omega)
  | succ fuel ih =>
    intro i c hi hfu hfd
    cases goingUp with
    | true =>
      have hfu' := hfu rfl
      have hunfold : feedback_walk M scale steps tmax interRGB true (fuel + 1)
          i c =
          (if i + 1 = steps ∨ tmax ≤ scale.getD (i + 1) 0 then (c, []) else
            ((feedback_walk M scale steps tmax interRGB true fuel (i + 1)
                ((M c (interRGB i)).1)).1,
             i :: (feedback_walk M scale steps tmax interRGB true fuel (i + 1)
                ((M c (interRGB i)).1)).2)) := rfl
      by_cases hstop : i + 1 = steps ∨ tmax ≤ scale.getD (i + 1) 0
      · rw [hunfold, if_pos hstop]
        refine ⟨rfl, fun k hk => absurd hk (Nat.not_lt_zero k), ?_, rfl⟩
        show i + 0 = steps - 1 ∨ tmax ≤ scale.getD (i + 0 + 1) 0
        rcases hstop with h | h
        · exact Or.inl (by omega)
        · exact Or.inr (by simpa using h)
      · rw [hunfold, if_neg hstop]
        have hnext : i + 1 < steps := by
          rcases Nat.lt_or_ge (i + 1) steps with h | h
          · exact h
          · exact absurd (Or.inl (by omega : i + 1 = steps)) hstop
        obtain ⟨ha, hb, hc, hd⟩ := ih (i + 1) ((M c (interRGB i)).1) hnext
          (fun _ => by omega) (fun hf => by cases hf)
        have hcomp : ∀ k, walkMove true i (k + 1) = walkMove true (i + 1) k := by
          intro k
          show i + (k + 1) = (i + 1) + k
          omega
        have hnostop : ¬ walkStopClaim scale steps tmax true i := by
          intro hst
          have hst' : i = steps - 1 ∨ tmax ≤ scale.getD (i + 1) 0 := hst
          rcases hst' with h | h
          · exact hstop (Or.inl (by omega))
          · exact hstop (Or.inr h)
        refine ⟨?_, ?_, ?_, ?_⟩
        · simp only [List.length_cons, List.range_succ_eq_map, List.map_cons,
            List.map_map]
          congr 1
          conv_lhs => rw [ha]
          refine List.map_congr_left fun k _ => ?_
          exact (hcomp k).symm
        · intro k hk
          match k with
          | 0 => exact hnostop
          | k + 1 =>
            rw [hcomp]
            exact hb k (by simpa using hk)
        · rw [List.length_cons, hcomp]
          exact hc
        · simp only [List.foldl_cons]
          exact hd
    | false =>
      have hfd' := hfd rfl
      have hunfold : feedback_walk M scale steps tmax interRGB false (fuel + 1)
          i c =
          (if i = 0 ∨ scale.getD (i - 1) 0 ≤ tmax then (c, []) else
            ((feedback_walk M scale steps tmax interRGB false fuel (i - 1)
                ((M c (interRGB i)).1)).1,
             i :: (feedback_walk M scale steps tmax interRGB false fuel (i - 1)
                ((M c (interRGB i)).1)).2)) := rfl
      by_cases hstop : i = 0 ∨ scale.getD (i - 1) 0 ≤ tmax
      · rw [hunfold, if_pos hstop]
        refine ⟨rfl, fun k hk => absurd hk (Nat.not_lt_zero k), ?_, rfl⟩
        show i - 0 = 0 ∨ scale.getD (i - 0 - 1) 0 ≤ tmax
        simpa using hstop
      · rw [hunfold, if_neg hstop]
        have hi0 : i ≠ 0 := fun he => hstop (Or.inl he)
        obtain ⟨ha, hb, hc, hd⟩ := ih (i - 1) ((M c (interRGB i)).1)
          (by omega) (fun hf => by cases hf) (fun _ => by omega)
        have hcomp : ∀ k, walkMove false i (k + 1) = walkMove false (i - 1)
            k := by
          intro k
          show i - (k + 1) = (i - 1) - k
          omega
        have hnostop : ¬ walkStopClaim scale steps tmax false i := by
          intro hst
          exact hstop hst
        refine ⟨?_, ?_, ?_, ?_⟩
        · simp only [List.length_cons, List.range_succ_eq_map, List.map_cons,
            List.map_map]
          congr 1
          conv_lhs => rw [ha]
          refine List.map_congr_left fun k _ => ?_
          exact (hcomp k).symm
        · intro k hk
          match k with
          | 0 => exact hnostop
          | k + 1 =>
            rw [hcomp]
            exact hb k (by simpa using hk)
        · rw [List.length_cons, hcomp]
          exact hc
        · simp only [List.foldl_cons]
          exact hd

/-- C2: with use_feedback enabled, the walk of find_coefficients starts at
index steps / 3, goes up exactly when the scale value there is below
max(target_RGB), visits one index per iteration re-seeding each minimization
with the previous solution, and stops exactly when the next scale value
would overshoot max(target_RGB) + 1e-10 (next at least it going up, at most
it going down) or the scale boundary (index 0 or the last index) is
reached.  The hypotheses fix scale, target_max, start index, direction and
walk exactly as find_coefficients computes them (src lines 308-334). -/
theorem find_coefficients_feedback_walk_spec (M : Q3 → Q3 → Q3 × ℚ)
    (target_RGB : Q3) (steps : ℕ) (c0 : Q3) (h1 : 1 ≤ steps)
    (scale : List ℚ) (hscale : scale = create_lightness_scale steps)
    (tmax : ℚ) (htmax : tmax = max3 target_RGB + eps10)
    (i0 : ℕ) (hi0 : i0 = steps / 3)
    (goingUp : Bool)
    (hup : goingUp = decide (scale.getD i0 0 < max3 target_RGB))
    (w : Q3 × List ℕ)
    (hw : w = feedback_walk M scale steps tmax
      (intermediate_RGB scale target_RGB tmax) goingUp steps i0 c0) :
    feedbackWalkClaimProp M scale steps tmax
      (intermediate_RGB scale target_RGB tmax) goingUp i0 c0 w := by
  subst hscale htmax hi0 hup hw
  have hi0lt : steps / 3 < steps := Nat.div_lt_self (by omega) (by omega)
  exact feedback_walk_spec_aux M _ steps _ _ _ h1 steps (steps / 3) c0 hi0lt
    (fun _ => by omega) (fun _ => by omega)

/-- Witness for C2 at the incrementing minimizer, target (1, 1, 1), 4
lightness steps and zero start coefficients. -/
theorem find_coefficients_feedback_walk_spec_witness :
    1 ≤ 4 ∧
    feedbackWalkClaimProp incMinimizer (create_lightness_scale 4) 4
      (max3 (1, 1, 1) + eps10)
      (intermediate_RGB (create_lightness_scale 4) (1, 1, 1)
        (max3 (1, 1, 1) + eps10))
      (decide ((create_lightness_scale 4).getD (4 / 3) 0 < max3 (1, 1, 1)))
      (4 / 3) (0, 0, 0)
      (feedback_walk incMinimizer (create_lightness_scale 4) 4
        (max3 (1, 1, 1) + eps10)
        (intermediate_RGB (create_lightness_scale 4) (1, 1, 1)
          (max3 (1, 1, 1) + eps10))
        (decide ((create_lightness_scale 4).getD (4 / 3) 0 < max3 (1, 1, 1)))
        4 (4 / 3) (0, 0, 0)) :=
  ⟨by norm_num,
   find_coefficients_feedback_walk_spec incMinimizer (1, 1, 1) 4 (0, 0, 0)
     (by norm_num) _ rfl _ rfl _ rfl _ rfl _ rfl⟩

lemma degenerate_XYZn (i : Fin 3) : ef_XYZn degenerateArgs i = 1 / 200 := by
  have hU : ∀ k, ef_U degenerateArgs k = 0 := by
    intro k
    simp [ef_U, degenerateArgs]
  have hR : ∀ k, ef_R degenerateArgs k = 1 / 2 := by
    intro k
    rw [ef_R, ef_t1, hU]
    norm_num
  have hdw : ef_dw degenerateArgs = 1 := by
    norm_num [ef_dw, degenerateArgs]
  have hk : ef_k degenerateArgs = 1 / 2 := by
    rw [ef_k, hdw]
    norm_num [degenerateArgs, Finset.sum_range_succ]
  have hXYZ : ef_XYZ degenerateArgs i = 1 / 2 := by
    rw [ef_XYZ, hk, hdw]
    have : ∀ k, ef_E degenerateArgs k * degenerateArgs.cmfs k i =
        ef_R degenerateArgs k := by
      intro k
      show (1 : ℝ) * ef_R degenerateArgs k * 1 = ef_R degenerateArgs k
      ring
    rw [Finset.sum_congr rfl fun k _ => this k]
    rw [Finset.sum_congr rfl fun k _ => hR k]
    show (1 : ℝ) / 2 * (∑ _k ∈ Finset.range 2, (1 : ℝ) / 2) * 1 = 1 / 2
    norm_num [Finset.sum_range_succ]
  rw [ef_XYZn, hXYZ]
  show (1 : ℝ) / 2 / 100 = 1 / 200
  norm_num

lemma degenerate_f (i : Fin 3) : ef_f degenerateArgs i = 110789 / 626400 := by
  rw [ef_f, degenerate_XYZn]
  rw [if_neg (by norm_num)]
  norm_num

/-- C8: the gradient of error_function is always the Jacobian transpose
applied to (Lab - target) divided by the error, with no guard on the
divisor; on the concrete degenerate input the computed Lab equals the target
exactly, so the error is 0 and the gradient computation divides by zero
(the function still returns a value, it does not raise a typed error). -/
theorem error_function_gradient_divides_by_zero :
    (∀ (a : ErrorArgs) (i : Fin 3), ef_derror a i =
      (∑ j : Fin 3, ef_dLab a j i * (ef_Lab a j - a.target j)) / ef_error a) ∧
    (∀ j : Fin 3, ef_Lab degenerateArgs j = degenerateArgs.target j) ∧
    ef_error degenerateArgs = 0 := by
  have hLab : ∀ j : Fin 3, ef_Lab degenerateArgs j = degenerateArgs.target j := by
    intro j
    fin_cases j <;>
      simp only [ef_Lab, Matrix.cons_val_zero, Matrix.cons_val_one,
        Matrix.head_cons, Matrix.cons_val_two, Matrix.tail_cons,
        degenerate_f] <;>
      norm_num [degenerateArgs]
  refine ⟨fun a i => rfl, hLab, ?_⟩
  rw [ef_error]
  have : ∀ j : Fin 3, (ef_Lab degenerateArgs j - degenerateArgs.target j) ^ 2
      = 0 := by
    intro j
    rw [hLab j]
    ring
  rw [Finset.sum_congr rfl fun j _ => this j]
  simp

lemma ssLeft_node (pts : ℕ → ℚ) (n j : ℕ) (hj : j < n)
    (hmono : ∀ a b, a < b → b < n → pts a < pts b) :
    ssLeft pts n (pts j) = j := by
  unfold ssLeft
  have hfe : (Finset.range n).filter (fun k => pts k < pts j) =
      Finset.range j := by
    ext k
    simp only [Finset.mem_filter, Finset.mem_range]
    constructor
    · rintro ⟨hk, hlt⟩
      by_contra hge
      push_neg at hge
      rcases eq_or_lt_of_le hge with rfl | hlt2
      · exact lt_irrefl _ hlt
      · exact absurd hlt (not_lt.2 (hmono j k hlt2 hk).le)
    · intro hk
      exact ⟨lt_trans hk hj, hmono k j hk hj⟩
  rw [hfe, Finset.card_range]

lemma interp1_eval (pts : ℕ → ℚ) (n : ℕ) (x : ℚ) (v : ℕ → Option ℚ)
    (i : ℕ) (hn : ¬ n ≤ 1) (hci : cellIndex pts n x = i)
    (a b : ℚ) (ha : v i = some a) (hb : v (i + 1) = some b)
    (hw : pts (i + 1) - pts i ≠ 0) :
    interp1 pts n x v =
      some ((1 - normDist pts n x) * a + normDist pts n x * b) := by
  unfold interp1
  rw [if_neg hn, hci, if_neg hw, ha, hb]

lemma interp1_res_le_one (pts : ℕ → ℚ) (n : ℕ) (x : ℚ) (v : ℕ → Option ℚ)
    (h : n ≤ 1) : interp1 pts n x v = none := by
  unfold interp1
  rw [if_pos h]

lemma interp1_const_none (pts : ℕ → ℚ) (n : ℕ) (x : ℚ) (v : ℕ → Option ℚ)
    (hv : ∀ k, v k = none) : interp1 pts n x v = none := by
  unfold interp1
  split_ifs with h1 h2
  · rfl
  · rfl
  · rw [hv (cellIndex pts n x), hv (cellIndex pts n x + 1)]

lemma interp1_isSome (pts : ℕ → ℚ) (n : ℕ) (x : ℚ) (v : ℕ → Option ℚ)
    (h2 : 2 ≤ n) (hmono : ∀ a b, a < b → b < n → pts a < pts b)
    (hv : ∀ k, k < n → (v k).isSome) :
    (interp1 pts n x v).isSome := by
  have hn : ¬ n ≤ 1 := by omega
  have hile : cellIndex pts n x ≤ n - 2 := min_le_right _ _
  have hlt : pts (cellIndex pts n x) < pts (cellIndex pts n x + 1) :=
    hmono _ _ (by omega) (by omega)
  have hw : pts (cellIndex pts n x + 1) - pts (cellIndex pts n x) ≠ 0 :=
    sub_ne_zero.mpr (ne_of_gt hlt)
  obtain ⟨a, ha⟩ :=
    Option.isSome_iff_exists.mp (hv (cellIndex pts n x) (by omega))
  obtain ⟨b, hb⟩ :=
    Option.isSome_iff_exists.mp (hv (cellIndex pts n x + 1) (by omega))
  rw [interp1_eval pts n x v (cellIndex pts n x) hn rfl a b ha hb hw]
  rfl

lemma interp1_node (pts : ℕ → ℚ) (n j : ℕ) (h2 : 2 ≤ n) (hj : j < n)
    (hmono : ∀ a b, a < b → b < n → pts a < pts b) (v : ℕ → Option ℚ)
    (hv : ∀ k, k < n → (v k).isSome) :
    interp1 pts n (pts j) v = v j := by
  have hn : ¬ n ≤ 1 := by omega
  have hss : ssLeft pts n (pts j) = j := ssLeft_node pts n j hj hmono
  rcases Nat.eq_zero_or_pos j with rfl | hjpos
  · have hci : cellIndex pts n (pts 0) = 0 := by
      unfold cellIndex
      rw [hss]
      omega
    have hlt : pts 0 < pts 1 := hmono 0 1 (by omega) (by omega)
    obtain ⟨a, ha⟩ := Option.isSome_iff_exists.mp (hv 0 hj)
    obtain ⟨b, hb⟩ := Option.isSome_iff_exists.mp (hv 1 (by omega))
    rw [interp1_eval pts n (pts 0) v 0 hn hci a b ha hb
      (sub_ne_zero.mpr (ne_of_gt hlt))]
    have ht : normDist pts n (pts 0) = 0 := by
      unfold normDist
      rw [hci, sub_self, zero_div]
    rw [ht, ha]
    norm_num
  · have hci : cellIndex pts n (pts j) = j - 1 := by
      unfold cellIndex
      rw [hss]
      omega
    have hidx : j - 1 + 1 = j := by omega
    have hlt : pts (j - 1) < pts j := hmono (j - 1) j (by omega) hj
    have hw : pts (j - 1 + 1) - pts (j - 1) ≠ 0 := by
      rw [hidx]
      exact sub_ne_zero.mpr (ne_of_gt hlt)
    obtain ⟨a, ha⟩ := Option.isSome_iff_exists.mp (hv (j - 1) (by omega))
    obtain ⟨b, hb⟩ := Option.isSome_iff_exists.mp (hv j hj)
    have hb' : v (j - 1 + 1) = some b := by
      rw [hidx]
      exact hb
    rw [interp1_eval pts n (pts j) v (j - 1) hn hci a b ha hb' hw]
    have ht : normDist pts n (pts j) = 1 := by
      unfold normDist
      rw [hci, hidx]
      exact div_self (sub_ne_zero.mpr (ne_of_gt hlt))
    rw [ht, hb]
    norm_num

lemma axis_node_in_bounds (pts : ℕ → ℚ) (n j : ℕ) (hj : j < n)
    (hmono : ∀ a b, a < b → b < n → pts a < pts b) :
    axisOutOfBounds pts n (pts j) = false := by
  unfold axisOutOfBounds
  have hlo : pts 0 ≤ pts j := by
    rcases Nat.eq_zero_or_pos j with rfl | hpos
    · exact le_refl _
    · exact (hmono 0 j hpos hj).le
  have hhi : pts j ≤ pts (n - 1) := by
    rcases eq_or_lt_of_le (by omega : j ≤ n - 1) with he | hlt
    · rw [he]
    · exact (hmono j (n - 1) hlt (by omega)).le
  simp only [Bool.or_eq_false_iff, decide_eq_false_iff_not, not_lt]
  exact ⟨hlo, hhi⟩

lemma cast_axis_mono : ∀ a b : ℕ, a < b → b < 3 → ((a : ℚ)) < (b : ℚ) :=
  fun a b hab _ => by exact_mod_cast hab

lemma linspace_axis_mono (n : ℕ) (h2 : 2 ≤ n) :
    ∀ a b, a < b → b < n → linspaceAt n a < linspaceAt n b := by
  intro a b hab _
  unfold linspaceAt
  have hd : (0 : ℚ) < (n : ℚ) - 1 := by
    have : (2 : ℚ) ≤ (n : ℚ) := by exact_mod_cast h2
    linarith
  exact div_lt_div_of_pos_right (by exact_mod_cast hab) hd

lemma argmax3_lt (c : Q3) : argmax3 c < 3 := by
  unfold argmax3
  split
  · omega
  · split <;> omega

/-- C5 (amended): on a loaded table of resolution at least 2 with a
strictly ascending scale axis, when the derived grid coordinates of an RGB
triple coincide exactly with a grid sample point of each axis, every output
channel of the interpolator is exactly the stored coefficient at that grid
point.  The restriction to resolution at least 2 is needed: from_file also
accepts resolution-1 tables, on which scipy returns NaN even at the grid
node. -/
theorem coefficients_at_grid_point (st : InterpolatorState)
    (hmono : ∀ a b, a < b → b < st.res → st.scale a < st.scale b)
    (h2 : 2 ≤ st.res) (RGB : Q3) (j1 j2 j3 : ℕ)
    (hj1 : j1 < st.res) (hj2 : j2 < st.res) (hj3 : j3 < st.res)
    (hv1 : comp3 RGB (argmax3 RGB) = st.scale j1)
    (hv2 : comp3 (chroma3 RGB) ((argmax3 RGB + 2) % 3) = linspaceAt st.res j2)
    (hv3 : comp3 (chroma3 RGB) ((argmax3 RGB + 1) % 3) = linspaceAt st.res j3) :
    ∀ ch, Jakob2019Interpolator.coefficients st RGB ch =
      some (st.table (argmax3 RGB) j1 j2 j3 ch) := by
  have hoob : coordsOutOfBounds st RGB = false := by
    unfold coordsOutOfBounds
    simp only [hv1, hv2, hv3, Bool.or_eq_false_iff]
    refine ⟨⟨⟨?_, ?_⟩, ?_⟩, ?_⟩
    · exact axis_node_in_bounds (fun i => (i : ℚ)) 3 (argmax3 RGB)
        (argmax3_lt RGB) cast_axis_mono
    · exact axis_node_in_bounds st.scale st.res j1 hj1 hmono
    · exact axis_node_in_bounds (linspaceAt st.res) st.res j2 hj2
        (linspace_axis_mono st.res h2)
    · exact axis_node_in_bounds (linspaceAt st.res) st.res j3 hj3
        (linspace_axis_mono st.res h2)
  intro ch
  show (if coordsOutOfBounds st RGB = true then none
    else interp4 st ((argmax3 RGB : ℕ) : ℚ)
      (comp3 RGB (argmax3 RGB))
      (comp3 (chroma3 RGB) ((argmax3 RGB + 2) % 3))
      (comp3 (chroma3 RGB) ((argmax3 RGB + 1) % 3)) ch) =
    some (st.table (argmax3 RGB) j1 j2 j3 ch)
  rw [hv1, hv2, hv3, hoob]
  simp only [Bool.false_eq_true, if_false]
  unfold interp4
  have hlin := linspace_axis_mono st.res h2
  have hlev3 : ∀ i0 i1 i2 : ℕ,
      (interp1 (linspaceAt st.res) st.res (linspaceAt st.res j3)
        (fun i3 => some (st.table i0 i1 i2 i3 ch))).isSome :=
    fun i0 i1 i2 => interp1_isSome _ _ _ _ h2 hlin (fun k _ => rfl)
  have hlev2 : ∀ i0 i1 : ℕ,
      (interp1 (linspaceAt st.res) st.res (linspaceAt st.res j2)
        (fun i2 => interp1 (linspaceAt st.res) st.res (linspaceAt st.res j3)
          (fun i3 => some (st.table i0 i1 i2 i3 ch)))).isSome :=
    fun i0 i1 => interp1_isSome _ _ _ _ h2 hlin (fun k _ => hlev3 i0 i1 k)
  have hlev1 : ∀ i0 : ℕ,
      (interp1 st.scale st.res (st.scale j1)
        (fun i1 => interp1 (linspaceAt st.res) st.res (linspaceAt st.res j2)
          (fun i2 => interp1 (linspaceAt st.res) st.res (linspaceAt st.res j3)
            (fun i3 => some (st.table i0 i1 i2 i3 ch))))).isSome :=
    fun i0 => interp1_isSome _ _ _ _ h2 hmono (fun k _ => hlev2 i0 k)
  rw [interp1_node (fun i => (i : ℚ)) 3 (argmax3 RGB) (by omega)
    (argmax3_lt RGB) cast_axis_mono _ (fun k _ => hlev1 k)]
  rw [interp1_node st.scale st.res j1 h2 hj1 hmono _
    (fun k _ => hlev2 (argmax3 RGB) k)]
  rw [interp1_node (linspaceAt st.res) st.res j2 h2 hj2 hlin _
    (fun k _ => hlev3 (argmax3 RGB) j1 k)]
  rw [interp1_node (linspaceAt st.res) st.res j3 h2 hj3 hlin
    (fun i3 => some (st.table (argmax3 RGB) j1 j2 i3 ch)) (fun k _ => rfl)]

/-- Witness for C5 (amended) at the RGB triple (1, 0, 0), whose derived
coordinates (0, 1, 0, 0) are all grid sample points of the demo table. -/
theorem coefficients_at_grid_point_witness :
    (∀ a b, a < b → b < demoInterpState.res →
      demoInterpState.scale a < demoInterpState.scale b) ∧
    2 ≤ demoInterpState.res ∧
    (1 : ℕ) < demoInterpState.res ∧ (0 : ℕ) < demoInterpState.res ∧
    comp3 (1, 0, 0) (argmax3 (1, 0, 0)) = demoInterpState.scale 1 ∧
    comp3 (chroma3 (1, 0, 0)) ((argmax3 (1, 0, 0) + 2) % 3) =
      linspaceAt demoInterpState.res 0 ∧
    comp3 (chroma3 (1, 0, 0)) ((argmax3 (1, 0, 0) + 1) % 3) =
      linspaceAt demoInterpState.res 0 ∧
    (∀ ch, Jakob2019Interpolator.coefficients demoInterpState (1, 0, 0) ch =
      some (demoInterpState.table (argmax3 (1, 0, 0)) 1 0 0 ch)) := by
  have hmono : ∀ a b, a < b → b < demoInterpState.res →
      demoInterpState.scale a < demoInterpState.scale b := by
    intro a b hab _
    show (a : ℚ) < (b : ℚ)
    exact_mod_cast hab
  have hargmax : argmax3 (1, 0, 0) = 0 := by norm_num [argmax3]
  have hv1 : comp3 (1, 0, 0) (argmax3 (1, 0, 0)) = demoInterpState.scale 1 := by
    rw [hargmax]
    norm_num [comp3, demoInterpState]
  have hv2 : comp3 (chroma3 (1, 0, 0)) ((argmax3 (1, 0, 0) + 2) % 3) =
      linspaceAt demoInterpState.res 0 := by
    rw [hargmax]
    norm_num [comp3, chroma3, linspaceAt, demoInterpState]
  have hv3 : comp3 (chroma3 (1, 0, 0)) ((argmax3 (1, 0, 0) + 1) % 3) =
      linspaceAt demoInterpState.res 0 := by
    rw [hargmax]
    norm_num [comp3, chroma3, linspaceAt, demoInterpState]
  exact ⟨hmono, by norm_num [demoInterpState], by norm_num [demoInterpState],
    by norm_num [demoInterpState], hv1, hv2, hv3,
    coefficients_at_grid_point demoInterpState hmono
      (by norm_num [demoInterpState]) (1, 0, 0) 1 0 0
      (by norm_num [demoInterpState]) (by norm_num [demoInterpState])
      (by norm_num [demoInterpState]) hv1 hv2 hv3⟩

/-- C5 counterexample: on the resolution-1 loaded table res1State (which
from_file accepts: its length-1 scale axis passes the strictly-ascending
check vacuously), the RGB triple (1/2, 0, 0) derives coordinates lying
exactly on a grid sample point of every axis and inside the grid bounds,
yet every output channel is NaN (none) rather than the stored coefficient:
scipy clips the cell index of a single-point axis to -1, which wraps to the
one grid point, so the cell has zero width, the normalized distance is 0/0
and the result is NaN even at the node.  This refutes the claim that the
interpolation returns exactly the stored value at every grid point of every
loaded table. -/
theorem coefficients_at_grid_point_claim_fails :
    coordsOutOfBounds res1State (1 / 2, 0, 0) = false ∧
    comp3 (1 / 2, 0, 0) (argmax3 (1 / 2, 0, 0)) = res1State.scale 0 ∧
    comp3 (chroma3 (1 / 2, 0, 0)) ((argmax3 (1 / 2, 0, 0) + 2) % 3) =
      linspaceAt res1State.res 0 ∧
    comp3 (chroma3 (1 / 2, 0, 0)) ((argmax3 (1 / 2, 0, 0) + 1) % 3) =
      linspaceAt res1State.res 0 ∧
    (∀ ch, Jakob2019Interpolator.coefficients res1State (1 / 2, 0, 0) ch =
      none) ∧
    Jakob2019Interpolator.coefficients res1State (1 / 2, 0, 0) 0 ≠
      some (res1State.table (argmax3 (1 / 2, 0, 0)) 0 0 0 0) := by
  have hargmax : argmax3 (1 / 2, 0, 0) = 0 := by norm_num [argmax3]
  have hoob : coordsOutOfBounds res1State (1 / 2, 0, 0) = false := by
    norm_num [coordsOutOfBounds, axisOutOfBounds, argmax3, comp3, chroma3,
      max3, eps10, linspaceAt, res1State]
  have hnone : ∀ ch,
      Jakob2019Interpolator.coefficients res1State (1 / 2, 0, 0) ch = none := by
    intro ch
    show (if coordsOutOfBounds res1State (1 / 2, 0, 0) = true then none
      else interp4 res1State ((argmax3 (1 / 2, 0, 0) : ℕ) : ℚ)
        (comp3 (1 / 2, 0, 0) (argmax3 (1 / 2, 0, 0)))
        (comp3 (chroma3 (1 / 2, 0, 0)) ((argmax3 (1 / 2, 0, 0) + 2) % 3))
        (comp3 (chroma3 (1 / 2, 0, 0)) ((argmax3 (1 / 2, 0, 0) + 1) % 3))
        ch) = none
    rw [hoob]
    simp only [Bool.false_eq_true, if_false]
    unfold interp4
    exact interp1_const_none _ _ _ _
      (fun k => interp1_res_le_one _ _ _ _ (by norm_num [res1State]))
  have hv1 : comp3 (1 / 2, 0, 0) (argmax3 (1 / 2, 0, 0)) =
      res1State.scale 0 := by
    rw [hargmax]
    norm_num [comp3, res1State]
  have hv2 : comp3 (chroma3 (1 / 2, 0, 0)) ((argmax3 (1 / 2, 0, 0) + 2) % 3) =
      linspaceAt res1State.res 0 := by
    rw [hargmax]
    norm_num [comp3, chroma3, max3, eps10, linspaceAt, res1State]
  have hv3 : comp3 (chroma3 (1 / 2, 0, 0)) ((argmax3 (1 / 2, 0, 0) + 1) % 3) =
      linspaceAt res1State.res 0 := by
    rw [hargmax]
    norm_num [comp3, chroma3, max3, eps10, linspaceAt, res1State]
  refine ⟨hoob, hv1, hv2, hv3, hnone, ?_⟩
  rw [hnone 0]
  simp

/-- C4 counterexample: the RGB triple (2, 1, 1) derives the coordinate
v1 = 2, beyond the scale axis (0, 1) of the demo table; scipy (with
bounds_error False and the default NaN fill value) fills every output
channel with NaN - modelled as none - so no numeric coefficient triple is
produced, contradicting the clamp/extrapolate behaviour the claim
asserts. -/
theorem coefficients_oob_claim_fails :
    coordsOutOfBounds demoInterpState (2, 1, 1) = true ∧
    ∀ ch, Jakob2019Interpolator.coefficients demoInterpState (2, 1, 1) ch =
      none := by
  have hoob : coordsOutOfBounds demoInterpState (2, 1, 1) = true := by
    norm_num [coordsOutOfBounds, axisOutOfBounds, argmax3, comp3, chroma3,
      max3, eps10, linspaceAt, demoInterpState]
  refine ⟨hoob, fun ch => ?_⟩
  show (if coordsOutOfBounds demoInterpState (2, 1, 1) = true then none
    else interp4 demoInterpState ((argmax3 (2, 1, 1) : ℕ) : ℚ)
      (comp3 (2, 1, 1) (argmax3 (2, 1, 1)))
      (comp3 (chroma3 (2, 1, 1)) ((argmax3 (2, 1, 1) + 2) % 3))
      (comp3 (chroma3 (2, 1, 1)) ((argmax3 (2, 1, 1) + 1) % 3)) ch) = none
  rw [if_pos hoob]

/-- C4 (amended): whenever a derived coordinate falls outside the loaded
grid, coefficients returns the NaN fill value (none) for all three output
channels instead of clamping or extrapolating; the call still returns
normally rather than raising an error (the embedding is a total
function). -/
theorem coefficients_oob_yields_fill (st : InterpolatorState) (RGB : Q3)
    (h : coordsOutOfBounds st RGB = true) :
    ∀ ch, Jakob2019Interpolator.coefficients st RGB ch = none := by
  intro ch
  show (if coordsOutOfBounds st RGB = true then none
    else interp4 st ((argmax3 RGB : ℕ) : ℚ) (comp3 RGB (argmax3 RGB))
      (comp3 (chroma3 RGB) ((argmax3 RGB + 2) % 3))
      (comp3 (chroma3 RGB) ((argmax3 RGB + 1) % 3)) ch) = none
  rw [if_pos h]

/-- Witness for C4 (amended) at the out-of-range input (2, 1, 1). -/
theorem coefficients_oob_yields_fill_witness :
    coordsOutOfBounds demoInterpState (2, 1, 1) = true ∧
    ∀ ch, Jakob2019Interpolator.coefficients demoInterpState (2, 1, 1) ch =
      none :=
  ⟨coefficients_oob_claim_fails.1,
   coefficients_oob_yields_fill demoInterpState (2, 1, 1)
     coefficients_oob_claim_fails.1⟩

lemma from_file_bad_magic (data : List ℕ) (h : data.take 4 ≠ magicSPEC) :
    Jakob2019Interpolator.from_file data =
      .error "Bad magic number, this likely is not the right file type!" := by
  unfold Jakob2019Interpolator.from_file
  rw [if_pos h]

/-- C9 (amended), part proved as one theorem: (1) a magic mismatch yields
the format error; (2) in that case the result depends only on the first 4
bytes, so nothing further is read; (3) when the magic matches and the
declared sizes fit the data, the only content validation is the
RegularGridInterpolator requirement that the scale axis be strictly
ascending: a file passing it parses successfully. -/
theorem from_file_magic_and_validation :
    (∀ data : List ℕ, data.take 4 ≠ magicSPEC →
      Jakob2019Interpolator.from_file data =
        .error "Bad magic number, this likely is not the right file type!") ∧
    (∀ pre rest rest' : List ℕ, pre.length = 4 → pre ≠ magicSPEC →
      Jakob2019Interpolator.from_file (pre ++ rest) =
        Jakob2019Interpolator.from_file (pre ++ rest')) ∧
    (∀ (data : List ℕ) (resN : ℕ),
      data.take 4 = magicSPEC →
      4 ≤ (data.drop 4).length →
      int32OfLE ((data.drop 4).take 4) = (resN : ℤ) →
      (readFloats (data.drop 4 |>.drop 4) resN).length = resN →
      (readFloats ((data.drop 4 |>.drop 4).drop (4 * resN))
        (3 * resN ^ 3 * 3)).length = 3 * resN ^ 3 * 3 →
      strictlyAscending (readFloats (data.drop 4 |>.drop 4) resN) = true →
      Jakob2019Interpolator.from_file data =
        .ok ⟨resN, readFloats (data.drop 4 |>.drop 4) resN,
          readFloats ((data.drop 4 |>.drop 4).drop (4 * resN))
            (3 * resN ^ 3 * 3)⟩) := by
  refine ⟨from_file_bad_magic, ?_, ?_⟩
  · intro pre rest rest' hlen hne
    have h1 : (pre ++ rest).take 4 = pre := by
      rw [← hlen]
      exact List.take_left pre rest
    have h2 : (pre ++ rest').take 4 = pre := by
      rw [← hlen]
      exact List.take_left pre rest'
    rw [from_file_bad_magic _ (by rw [h1]; exact hne),
      from_file_bad_magic _ (by rw [h2]; exact hne)]
  · intro data resN hmagic hlen hres hslen hclen hasc
    simp only [Jakob2019Interpolator.from_file]
    rw [if_neg (not_not_intro hmagic)]
    rw [if_neg (by omega : ¬ (data.drop 4).length < 4)]
    rw [hres]
    rw [if_neg (by exact Int.not_lt.2 (Int.natCast_nonneg resN) :
      ¬ ((resN : ℤ) < 0))]
    simp only [Int.toNat_natCast]
    rw [if_neg (not_not_intro hclen), if_neg (not_not_intro hslen),
      if_pos hasc]

/-- Witness for C9: a file whose first 4 bytes are zero fails with the
format error; two such files sharing the prefix parse identically; and the
well-formed goodFile parses successfully. -/
theorem from_file_magic_and_validation_witness :
    (([0, 0, 0, 0] : List ℕ).take 4 ≠ magicSPEC ∧
      Jakob2019Interpolator.from_file [0, 0, 0, 0] =
        .error "Bad magic number, this likely is not the right file type!") ∧
    (([0, 0, 0, 0] : List ℕ).length = 4 ∧
      Jakob2019Interpolator.from_file ([0, 0, 0, 0] ++ [1]) =
        Jakob2019Interpolator.from_file ([0, 0, 0, 0] ++ [2])) ∧
    (goodFile.take 4 = magicSPEC ∧
      Jakob2019Interpolator.from_file goodFile =
        .ok ⟨1, readFloats (goodFile.drop 4 |>.drop 4) 1,
          readFloats ((goodFile.drop 4 |>.drop 4).drop (4 * 1))
            (3 * 1 ^ 3 * 3)⟩) :=
  ⟨⟨by decide, from_file_magic_and_validation.1 [0, 0, 0, 0] (by decide)⟩,
   ⟨by decide,
    from_file_magic_and_validation.2.1 [0, 0, 0, 0] [1] [2] (by decide)
      (by decide)⟩,
   ⟨by decide,
    from_file_magic_and_validation.2.2 goodFile 1 (by decide) (by decide)
      (by decide) (by decide) (by decide) (by decide)⟩⟩

lemma from_file_rejects_descending (data : List ℕ) (resN : ℕ)
    (hmagic : data.take 4 = magicSPEC)
    (hlen : 4 ≤ (data.drop 4).length)
    (hres : int32OfLE ((data.drop 4).take 4) = (resN : ℤ))
    (hclen : (readFloats ((data.drop 4 |>.drop 4).drop (4 * resN))
      (3 * resN ^ 3 * 3)).length = 3 * resN ^ 3 * 3)
    (hslen : (readFloats (data.drop 4 |>.drop 4) resN).length = resN)
    (hasc : strictlyAscending (readFloats (data.drop 4 |>.drop 4) resN) =
      false) :
    Jakob2019Interpolator.from_file data =
      .error "ValueError: the points in dimension 1 must be strictly ascending"
    := by
  simp only [Jakob2019Interpolator.from_file]
  rw [if_neg (not_not_intro hmagic)]
  rw [if_neg (by omega : ¬ (data.drop 4).length < 4)]
  rw [hres]
  rw [if_neg (by exact Int.not_lt.2 (Int.natCast_nonneg resN) :
    ¬ ((resN : ℤ) < 0))]
  simp only [Int.toNat_natCast]
  rw [if_neg (not_not_intro hclen), if_neg (not_not_intro hslen),
    if_neg (by rw [hasc]; exact Bool.false_ne_true)]

set_option maxRecDepth 4000 in
/-- C9 counterexample: a full-size file whose first 4 bytes are the SPEC
magic is nevertheless rejected, because from_file constructs the
RegularGridInterpolator, which validates that the scale axis read from the
file is strictly ascending; so content validation beyond the magic does
happen, contradicting the claim. -/
theorem from_file_claim_fails_on_descending_scale :
    badScaleFile.take 4 = magicSPEC ∧
    Jakob2019Interpolator.from_file badScaleFile =
      .error "ValueError: the points in dimension 1 must be strictly ascending"
    := by
  refine ⟨rfl, ?_⟩
  have hdec1 : float32OfLE [0, 0, 128, 63] = some 1 := by
    norm_num [float32OfLE, float32OfBits, leBytesToNat]
  have hdec0 : float32OfLE [0, 0, 0, 0] = some 0 := by
    norm_num [float32OfLE, float32OfBits, leBytesToNat]
  have hscale : readFloats (badScaleFile.drop 4 |>.drop 4) 2 =
      [some 1, some 0] := by
    rw [show readFloats (badScaleFile.drop 4 |>.drop 4) 2 =
      [float32OfLE [0, 0, 128, 63], float32OfLE [0, 0, 0, 0]] from rfl,
      hdec1, hdec0]
  have hasc : strictlyAscending (readFloats (badScaleFile.drop 4 |>.drop 4) 2)
      = false := by
    rw [hscale]
    norm_num [strictlyAscending, optLt]
  exact from_file_rejects_descending badScaleFile 2 rfl (by decide)
    (by decide) (by decide) (by decide) hasc
